import Mathlib

/-!
Shallow embedding of the tournament core of src/server.js:
the round-robin schedule generator (generateSchedule), the standings
engine (createInitialScoreboard / applyMatchResult), the result ledger
(updateMatchResult), and the knockout bracket engine (generatePlayoff /
updateKnockout).  Persistence (loadScoreboard / saveScoreboard) is
modelled by passing the loaded state in and returning the state that
would be saved; HTTP routing and file serving are out of scope.

JS specifics modelled explicitly:
  - parseIntDecimal models the JS builtin parseInt(x, 10): leading
    whitespace is skipped, an optional sign is read, and the longest
    leading run of decimal digits is converted; anything else after it
    is ignored; no digits means NaN, modelled as none.
  - truthyO models JS truthiness of a nullable string (null and the
    empty string are falsy).
  - Scoreboards are JS objects keyed by team name; they are modelled as
    association lists in key-insertion order, matching Object.keys and
    property-creation order.
-/

set_option maxHeartbeats 1000000

/-- Statistical record of one team, as stored in the scoreboard
(createInitialScoreboard in src/server.js). -/
structure TeamRecord where
  played : Nat
  wins : Nat
  draws : Nat
  losses : Nat
  goalsFor : Nat
  goalsAgainst : Nat
  goalDifference : Int
  points : Nat
  logo : Option String
  deriving DecidableEq, Repr

/-- Fresh all-zero record with a given logo, as built by
createInitialScoreboard and by the ensureTeam closure of
applyMatchResult. -/
def freshRecord (logo : Option String) : TeamRecord :=
  { played := 0, wins := 0, draws := 0, losses := 0, goalsFor := 0,
    goalsAgainst := 0, goalDifference := 0, points := 0, logo := logo }

/-- Scoreboard: a JS object keyed by team name, modelled as an
association list in key-insertion order. -/
abbrev Scoreboard : Type := List (String × TeamRecord)

/-- Lookup of a key in a scoreboard object. -/
def lookupTeam (sb : Scoreboard) (t : String) : Option TeamRecord :=
  match sb with
  | [] => none
  | p :: rest => if p.1 = t then some p.2 else lookupTeam rest t

/-- JS truthiness of a nullable string: null and the empty string are falsy. -/
def truthyO : Option String → Bool
  | none => false
  | some s => s ≠ ""

/-- One recorded match result, an entry of the results ledger
(the object pushed by updateMatchResult in src/server.js). -/
structure MatchResult where
  id : String
  home : String
  away : String
  homeScore : Nat
  awayScore : Nat
  deriving DecidableEq, Repr

/-- Longest leading run of decimal digits of a character list. -/
def leadingDigits : List Char → List Char
  | [] => []
  | c :: cs => if c.isDigit then c :: leadingDigits cs else []

/-- Numeric value of a big-endian list of decimal digit characters. -/
def digitsVal (l : List Char) : Nat :=
  l.foldl (fun a c => 10 * a + (c.toNat - '0'.toNat)) 0

/-- Parse the longest leading run of decimal digits; none when there is
no leading digit. -/
def parseNatPrefix (cs : List Char) : Option Nat :=
  let ds := leadingDigits cs
  if ds.isEmpty then none else some (digitsVal ds)

/-- Model of the JS builtin parseInt(x, 10): skip leading whitespace,
read an optional sign, convert the longest leading run of decimal
digits, ignore the rest; none models NaN.  The argument is the JS
string conversion of the payload value (so the number 3.7 arrives as
the string 3.7 and parses to 3). -/
def parseIntDecimal (s : String) : Option Int :=
  match s.data.dropWhile Char.isWhitespace with
  | '-' :: rest => (parseNatPrefix rest).map (fun n => -(n : Int))
  | '+' :: rest => (parseNatPrefix rest).map (fun n => (n : Int))
  | cs => (parseNatPrefix cs).map (fun n => (n : Int))

/-- Initial scoreboard: an all-zero record per team, with the logo
looked up in the logos map (createInitialScoreboard in src/server.js). -/
def createInitialScoreboard (teams : List String) (logos : String → Option String) : Scoreboard :=
  teams.map (fun t => (t, freshRecord (logos t)))

/-- Add the team to the scoreboard with a fresh record when absent
(the ensureTeam closure of applyMatchResult); JS property creation
appends the key at the end of the object. -/
def ensureTeam (sb : Scoreboard) (t : String) : Scoreboard :=
  match lookupTeam sb t with
  | some _ => sb
  | none => sb ++ [(t, freshRecord none)]

/-- Apply a function to the record stored under a key. -/
def modifyTeam (sb : Scoreboard) (t : String) (f : TeamRecord → TeamRecord) : Scoreboard :=
  sb.map (fun p => if p.1 = t then (p.1, f p.2) else p)

/-- Mutation applyMatchResult performs on the home record: play count,
goals, recomputed goal difference, and win/draw/loss plus points from
the score comparison. -/
def updateHomeRecord (r : TeamRecord) (hs as : Nat) : TeamRecord :=
  let gf := r.goalsFor + hs
  let ga := r.goalsAgainst + as
  { r with
    played := r.played + 1
    goalsFor := gf
    goalsAgainst := ga
    goalDifference := (gf : Int) - (ga : Int)
    wins := if hs > as then r.wins + 1 else r.wins
    losses := if hs < as then r.losses + 1 else r.losses
    draws := if hs = as then r.draws + 1 else r.draws
    points := if hs > as then r.points + 3 else if hs = as then r.points + 1 else r.points }

/-- Mutation applyMatchResult performs on the away record, mirror image
of updateHomeRecord. -/
def updateAwayRecord (r : TeamRecord) (hs as : Nat) : TeamRecord :=
  let gf := r.goalsFor + as
  let ga := r.goalsAgainst + hs
  { r with
    played := r.played + 1
    goalsFor := gf
    goalsAgainst := ga
    goalDifference := (gf : Int) - (ga : Int)
    wins := if as > hs then r.wins + 1 else r.wins
    losses := if as < hs then r.losses + 1 else r.losses
    draws := if hs = as then r.draws + 1 else r.draws
    points := if as > hs then r.points + 3 else if hs = as then r.points + 1 else r.points }

/-- applyMatchResult of src/server.js: ensure both teams have a record,
then apply the goal and point mutations to the home and away records. -/
def applyMatchResult (sb : Scoreboard) (home away : String) (hs as : Nat) : Scoreboard :=
  let sb1 := ensureTeam (ensureTeam sb home) away
  let sb2 := modifyTeam sb1 home (fun r => updateHomeRecord r hs as)
  modifyTeam sb2 away (fun r => updateAwayRecord r hs as)

/-- One knockout match as stored in the bracket (semi final or final);
home, away, scores and winner are null until populated. -/
structure KnockoutMatch where
  id : String
  home : Option String
  away : Option String
  homeScore : Option Nat
  awayScore : Option Nat
  winner : Option String
  deriving DecidableEq, Repr

/-- Knockout bracket: the two semi finals (the semiFinals array of
src/server.js, which always holds exactly two entries) and the final. -/
structure Knockout where
  sf1 : KnockoutMatch
  sf2 : KnockoutMatch
  final : KnockoutMatch
  deriving DecidableEq, Repr

/-- Persisted scoreboard document of one tournament: the per-team
scoreboard object, the results ledger, and the knockout bracket. -/
structure ScoreboardData where
  scoreboard : Scoreboard
  results : List MatchResult
  knockout : Option Knockout
  deriving DecidableEq, Repr

/-- Payload of the update-score route: optional explicit match id, team
names, and the raw score values (already converted to strings, as
parseInt would). -/
structure Payload where
  id : Option String
  home : String
  away : String
  homeScore : String
  awayScore : String
  deriving DecidableEq, Repr

/-- Resolved logical match id: the explicit payload id when truthy,
otherwise the synthesized home-away string (line 280 of src/server.js). -/
def resolvedId (p : Payload) : String :=
  match p.id with
  | some s => if s = "" then p.home ++ "-" ++ p.away else s
  | none => p.home ++ "-" ++ p.away

/-- Append the team to the accumulator unless already present; models
insertion into a JS Set, which keeps first-insertion order. -/
def addTeam (acc : List String) (t : String) : List String :=
  if t ∈ acc then acc else acc ++ [t]

/-- Team set gathered by updateMatchResult: existing scoreboard keys
plus every team appearing in any result, in Set insertion order. -/
def gatherTeams (existing : List String) (results : List MatchResult) : List String :=
  results.foldl (fun acc r => addTeam (addTeam acc r.home) r.away) (existing.foldl addTeam [])

/-- Logos carried forward from the previous scoreboard: present keys
whose logo is truthy (lines 300 to 304 of src/server.js). -/
def carriedLogos (old : Scoreboard) (t : String) : Option String :=
  match lookupTeam old t with
  | some r => if truthyO r.logo then r.logo else none
  | none => none

/-- Full standings recompute of updateMatchResult: rebuild an initial
scoreboard over the gathered team set (carrying logos forward) and fold
every ledger entry through applyMatchResult. -/
def recomputeScoreboard (old : Scoreboard) (results : List MatchResult) : Scoreboard :=
  let teams := gatherTeams (old.map (fun p => p.1)) results
  let init := createInitialScoreboard teams (carriedLogos old)
  results.foldl (fun sb r => applyMatchResult sb r.home r.away r.homeScore r.awayScore) init

/-- updateMatchResult of src/server.js on already-loaded scoreboard
data: validate teams and scores, replace any prior ledger entry with
the same resolved id, append the new entry, and recompute the full
scoreboard from the ledger.  The returned data is what saveScoreboard
persists; an error leaves the stored state untouched. -/
def updateMatchResult (data : ScoreboardData) (p : Payload) : Except String ScoreboardData :=
  if p.home = "" ∨ p.away = "" ∨ p.home = p.away then
    .error "Invalid teams."
  else
    match parseIntDecimal p.homeScore, parseIntDecimal p.awayScore with
    | some h, some a =>
      if h < 0 ∨ a < 0 then
        .error "Scores must be non‑negative integers."
      else
        let matchId := resolvedId p
        let results := (data.results.eraseP (fun r => r.id == matchId)) ++
          [{ id := matchId, home := p.home, away := p.away,
             homeScore := h.toNat, awayScore := a.toNat }]
        .ok { data with results := results,
                        scoreboard := recomputeScoreboard data.scoreboard results }
    | _, _ => .error "Scores must be non‑negative integers."

/-- Code-point lexicographic comparison of two character lists, the
model of the default JS localeCompare tie-break and of alphabetical
string order. -/
def charListLt : List Char → List Char → Bool
  | [], [] => false
  | [], _ :: _ => true
  | _ :: _, [] => false
  | c :: cs, d :: ds =>
    if c.toNat < d.toNat then true
    else if d.toNat < c.toNat then false
    else charListLt cs ds

/-- Strict alphabetical order on strings (code-point lexicographic). -/
def strLt (a b : String) : Bool := charListLt a.data b.data

/-- Model of the JS String.startsWith test. -/
def strStartsWith (s pre : String) : Bool := pre.data.isPrefixOf s.data

/-- One fixture of the round-robin schedule. -/
structure Fixture where
  id : String
  home : String
  away : String
  deriving DecidableEq, Repr

/-- Fixture id template of src/server.js line 120: the letter r, the
decimal round index, the separator -m, and the decimal loop index. -/
def encodeId (r i : Nat) : String :=
  "r" ++ Nat.repr r ++ "-m" ++ Nat.repr i

/-- One circle-method rotation step of generateSchedule: pop the last
participant and splice it back in at index 1 (lines 124 and 125 of
src/server.js). -/
def rotateOnce (l : List (Option String)) : List (Option String) :=
  match l with
  | [] => []
  | x :: xs =>
    match xs.getLast? with
    | none => [x]
    | some last => x :: last :: xs.dropLast

/-- Matches of one round: pair participant i with participant n-1-i for
i below n/2, keep the pair only when both slots are truthy (non-null
teams with non-empty names), and stamp the id from the round index and
the loop index i. -/
def roundMatches (l : List (Option String)) (r : Nat) : List Fixture :=
  (List.range (l.length / 2)).filterMap (fun i =>
    match l.getD i none, l.getD (l.length - 1 - i) none with
    | some h, some a =>
      if h = "" ∨ a = "" then none else some { id := encodeId r i, home := h, away := a }
    | _, _ => none)

/-- Round loop of generateSchedule: emit the current pairings, rotate,
and continue; fuel counts the remaining rounds. -/
def scheduleRounds (l : List (Option String)) (r : Nat) : Nat → List (List Fixture)
  | 0 => []
  | fuel + 1 => roundMatches l r :: scheduleRounds (rotateOnce l) (r + 1) fuel

/-- generateSchedule of src/server.js: append a synthetic null bye when
the team count is odd, then run n-1 circle-method rounds. -/
def generateSchedule (teams : List String) : List (List Fixture) :=
  let participants : List (Option String) := teams.map some
  let participants :=
    if participants.length % 2 = 1 then participants ++ [none] else participants
  scheduleRounds participants 0 (participants.length - 1)

/-- One row of the standings array built by generatePlayoff
(team name spread together with its record). -/
structure Standing where
  team : String
  record : TeamRecord
  deriving DecidableEq, Repr

/-- Sort comparator of generatePlayoff (lines 346 to 351 of
src/server.js): descending points, then descending goal difference,
then descending goals for, then the localeCompare of the team names,
modelled as lexicographic string order. -/
def cmpStanding (a b : Standing) : Int :=
  if b.record.points ≠ a.record.points then (b.record.points : Int) - (a.record.points : Int)
  else if b.record.goalDifference ≠ a.record.goalDifference then b.record.goalDifference - a.record.goalDifference
  else if b.record.goalsFor ≠ a.record.goalsFor then (b.record.goalsFor : Int) - (a.record.goalsFor : Int)
  else if strLt a.team b.team then -1 else if a.team = b.team then 0 else 1

/-- Model of the JS Array.sort call on the standings: a stable sort by
the comparator.  With a consistent comparator the ECMAScript sort is
the unique stable sorted permutation, which insertion sort computes. -/
def sortStandings (l : List Standing) : List Standing :=
  l.insertionSort (fun a b => cmpStanding a b ≤ 0)

/-- Ranking order described by the specification: descending points,
then descending goal difference, then descending goals for, then
ascending alphabetical team name. -/
def specLE (x y : Standing) : Prop :=
  y.record.points < x.record.points ∨
  (y.record.points = x.record.points ∧
    (y.record.goalDifference < x.record.goalDifference ∨
     (y.record.goalDifference = x.record.goalDifference ∧
      (y.record.goalsFor < x.record.goalsFor ∨
       (y.record.goalsFor = x.record.goalsFor ∧
        (strLt x.team y.team = true ∨ x.team = y.team))))))

instance (x y : Standing) : Decidable (specLE x y) := by
  unfold specLE; infer_instance

/-- Stable sort of the standings by the specification ranking order. -/
def sortSpec (l : List Standing) : List Standing := l.insertionSort specLE

/-- generatePlayoff of src/server.js on already-loaded schedule and
scoreboard data: return any existing bracket unchanged; otherwise
require the ledger to have at least as many results as the schedule has
fixtures and the scoreboard at least four teams, then seed the semi
finals first-vs-fourth and second-vs-third from the sorted standings.
Returns the bracket together with the data that saveScoreboard would
persist. -/
def generatePlayoff (schedule : List (List Fixture)) (data : ScoreboardData) :
    Except String (Knockout × ScoreboardData) :=
  match data.knockout with
  | some k => .ok (k, data)
  | none =>
    let totalMatches := (schedule.map List.length).sum
    if data.results.length < totalMatches then
      .error "Group stage is not yet complete."
    else if data.scoreboard.length < 4 then
      .error "At least four teams are required for semi finals."
    else
      let standings := data.scoreboard.map (fun p => Standing.mk p.1 p.2)
      let top4 := ((sortStandings standings).take 4).map (fun s => s.team)
      let knockout : Knockout :=
        { sf1 := { id := "sf1", home := some (top4.getD 0 ""), away := some (top4.getD 3 ""),
                   homeScore := none, awayScore := none, winner := none }
          sf2 := { id := "sf2", home := some (top4.getD 1 ""), away := some (top4.getD 2 ""),
                   homeScore := none, awayScore := none, winner := none }
          final := { id := "final", home := none, away := none,
                     homeScore := none, awayScore := none, winner := none } }
      .ok (knockout, { data with knockout := some knockout })

/-- Payload of the update-knockout route. -/
structure KnockoutPayload where
  id : String
  homeScore : String
  awayScore : String
  deriving DecidableEq, Repr

/-- Score and winner mutation of updateKnockout on the addressed match:
the winner is the home team on a strictly higher home score, the away
team on a strictly lower one, and the home team by default on a draw. -/
def setKnockoutResult (m : KnockoutMatch) (h a : Nat) : KnockoutMatch :=
  { m with homeScore := some h, awayScore := some a,
           winner := if h > a then m.home else if h < a then m.away else m.home }

/-- updateKnockout of src/server.js on already-loaded scoreboard data:
validate the payload, address the final by the exact id final or the
first semi final with a matching id, record the scores and winner, and,
after a semi final, populate the final pairing once both semi final
winners are decided and the final slots are still unset. -/
def updateKnockout (data : ScoreboardData) (p : KnockoutPayload) : Except String ScoreboardData :=
  match data.knockout with
  | none => .error "No knockout bracket found."
  | some k =>
    match parseIntDecimal p.homeScore, parseIntDecimal p.awayScore with
    | some h, some a =>
      if p.id = "" ∨ h < 0 ∨ a < 0 then
        .error "Invalid knockout update payload."
      else
        let k1 : Option Knockout :=
          if p.id = "final" then some { k with final := setKnockoutResult k.final h.toNat a.toNat }
          else if k.sf1.id = p.id then some { k with sf1 := setKnockoutResult k.sf1 h.toNat a.toNat }
          else if k.sf2.id = p.id then some { k with sf2 := setKnockoutResult k.sf2 h.toNat a.toNat }
          else none
        match k1 with
        | none => .error "Match not found in knockout bracket."
        | some k2 =>
          let k3 :=
            if strStartsWith p.id "sf" && truthyO k2.sf1.winner && truthyO k2.sf2.winner
               && !truthyO k2.final.home && !truthyO k2.final.away then
              { k2 with final := { k2.final with home := k2.sf1.winner, away := k2.sf2.winner } }
            else k2
          .ok { data with knockout := some k3 }
    | _, _ => .error "Invalid knockout update payload."

/-- Arithmetic invariants of one team record: points, goal difference
and play count are determined by wins, draws, losses and goals. -/
def RecordInv (r : TeamRecord) : Prop :=
  r.points = 3 * r.wins + r.draws ∧
  r.goalDifference = (r.goalsFor : Int) - (r.goalsAgainst : Int) ∧
  r.played = r.wins + r.draws + r.losses

instance (r : TeamRecord) : Decidable (RecordInv r) := by
  unfold RecordInv; infer_instance

/-- Every record of the scoreboard satisfies the record invariants. -/
def ScoreboardInv (sb : Scoreboard) : Prop :=
  ∀ q ∈ sb, RecordInv q.2

/-- Decidable whole-scoreboard form of the record invariants, used to
state closed witnesses. -/
def scoreboardInvB (sb : Scoreboard) : Bool :=
  sb.all (fun q => decide (RecordInv q.2))

theorem recordInv_fresh (logo : Option String) : RecordInv (freshRecord logo) := by
  simp [RecordInv, freshRecord]

theorem recordInv_updateHome (r : TeamRecord) (hs as : Nat) (h : RecordInv r) :
    RecordInv (updateHomeRecord r hs as) := by
  obtain ⟨h1, h2, h3⟩ := h
  unfold RecordInv updateHomeRecord
  refine ⟨?_, ?_, ?_⟩ <;> simp only <;> split_ifs <;> omega

theorem recordInv_updateAway (r : TeamRecord) (hs as : Nat) (h : RecordInv r) :
    RecordInv (updateAwayRecord r hs as) := by
  obtain ⟨h1, h2, h3⟩ := h
  unfold RecordInv updateAwayRecord
  refine ⟨?_, ?_, ?_⟩ <;> simp only <;> split_ifs <;> omega

theorem scoreboardInv_ensureTeam (sb : Scoreboard) (t : String) (h : ScoreboardInv sb) :
    ScoreboardInv (ensureTeam sb t) := by
  unfold ensureTeam
  cases lookupTeam sb t with
  | some _ => exact h
  | none =>
    intro q hq
    rcases List.mem_append.mp hq with hq | hq
    · exact h q hq
    · rcases List.mem_singleton.mp hq with rfl
      exact recordInv_fresh none

theorem scoreboardInv_modifyTeam (sb : Scoreboard) (t : String) (f : TeamRecord → TeamRecord)
    (hf : ∀ r, RecordInv r → RecordInv (f r)) (h : ScoreboardInv sb) :
    ScoreboardInv (modifyTeam sb t f) := by
  intro q hq
  unfold modifyTeam at hq
  rcases List.mem_map.mp hq with ⟨p, hp, hpe⟩
  by_cases hpt : p.1 = t
  · simp only [hpt, if_pos rfl] at hpe
    subst hpe
    exact hf _ (h p hp)
  · simp only [if_neg hpt] at hpe
    subst hpe
    exact h p hp

theorem scoreboardInv_apply (sb : Scoreboard) (home away : String) (hs as : Nat)
    (h : ScoreboardInv sb) : ScoreboardInv (applyMatchResult sb home away hs as) := by
  unfold applyMatchResult
  apply scoreboardInv_modifyTeam _ _ _ (fun r hr => recordInv_updateAway r hs as hr)
  apply scoreboardInv_modifyTeam _ _ _ (fun r hr => recordInv_updateHome r hs as hr)
  exact scoreboardInv_ensureTeam _ _ (scoreboardInv_ensureTeam _ _ h)

theorem scoreboardInv_initial (teams : List String) (logos : String → Option String) :
    ScoreboardInv (createInitialScoreboard teams logos) := by
  intro q hq
  unfold createInitialScoreboard at hq
  rcases List.mem_map.mp hq with ⟨t, _, rfl⟩
  exact recordInv_fresh _

theorem scoreboardInv_fold (results : List MatchResult) (sb : Scoreboard)
    (h : ScoreboardInv sb) :
    ScoreboardInv
      (results.foldl (fun sb r => applyMatchResult sb r.home r.away r.homeScore r.awayScore) sb) := by
  induction results generalizing sb with
  | nil => exact h
  | cons r rest ih => exact ih _ (scoreboardInv_apply _ _ _ _ _ h)

theorem scoreboardInv_recompute (old : Scoreboard) (results : List MatchResult) :
    ScoreboardInv (recomputeScoreboard old results) := by
  unfold recomputeScoreboard
  exact scoreboardInv_fold _ _ (scoreboardInv_initial _ _)

/-- Ledger produced by a successful updateMatchResult call: the prior
entry with the resolved id (if any) removed, and the new entry
appended. -/
def newLedger (d : ScoreboardData) (p : Payload) (h a : Int) : List MatchResult :=
  d.results.eraseP (fun r => r.id == resolvedId p) ++
    [{ id := resolvedId p, home := p.home, away := p.away,
       homeScore := h.toNat, awayScore := a.toNat }]

/-- Characterization of a successful updateMatchResult call: the teams
are valid, both scores parse to non-negative integers, and the returned
state carries the replaced ledger and the recomputed scoreboard. -/
theorem updateMatchResult_ok_iff (d : ScoreboardData) (p : Payload) (d' : ScoreboardData) :
    updateMatchResult d p = .ok d' ↔
      ¬(p.home = "" ∨ p.away = "" ∨ p.home = p.away) ∧
      ∃ h a, parseIntDecimal p.homeScore = some h ∧ parseIntDecimal p.awayScore = some a ∧
        ¬(h < 0 ∨ a < 0) ∧
        d' = { d with results := newLedger d p h a,
                      scoreboard := recomputeScoreboard d.scoreboard (newLedger d p h a) } := by
  constructor
  · intro hok
    unfold updateMatchResult at hok
    by_cases hv : p.home = "" ∨ p.away = "" ∨ p.home = p.away
    · simp only [if_pos hv] at hok
      exact Except.noConfusion hok
    · simp only [if_neg hv] at hok
      cases hph : parseIntDecimal p.homeScore with
      | none =>
        simp only [hph] at hok
        exact Except.noConfusion hok
      | some h =>
        cases hpa : parseIntDecimal p.awayScore with
        | none =>
          simp only [hph, hpa] at hok
          exact Except.noConfusion hok
        | some a =>
          simp only [hph, hpa] at hok
          by_cases hneg : h < 0 ∨ a < 0
          · simp only [if_pos hneg] at hok
            exact Except.noConfusion hok
          · simp only [if_neg hneg] at hok
            injection hok with hok'
            subst hok'
            exact ⟨hv, h, a, rfl, rfl, hneg, rfl⟩
  · rintro ⟨hv, h, a, hph, hpa, hneg, rfl⟩
    unfold updateMatchResult
    simp only [if_neg hv, hph, hpa, if_neg hneg]
    rfl

/-- Claim C1: after every successful upsertResult recompute, every team
record in the stored standings satisfies points = 3*wins + draws,
goalDifference = goalsFor - goalsAgainst, and played = wins + draws +
losses. -/
theorem upsert_preserves_record_invariants (d : ScoreboardData) (p : Payload)
    (d' : ScoreboardData) (h : updateMatchResult d p = .ok d') :
    ∀ q ∈ d'.scoreboard, RecordInv q.2 := by
  obtain ⟨-, h', a', -, -, -, rfl⟩ := (updateMatchResult_ok_iff d p d').mp h
  exact scoreboardInv_recompute _ _

instance {ε α : Type} [DecidableEq ε] [DecidableEq α] : DecidableEq (Except ε α) := fun x y =>
  match x, y with
  | .ok a, .ok b =>
    if h : a = b then .isTrue (by rw [h]) else
      .isFalse (fun hc => by injection hc; contradiction)
  | .error a, .error b =>
    if h : a = b then .isTrue (by rw [h]) else
      .isFalse (fun hc => by injection hc; contradiction)
  | .ok _, .error _ => .isFalse (fun hc => Except.noConfusion hc)
  | .error _, .ok _ => .isFalse (fun hc => Except.noConfusion hc)

/-- Concrete two-team tournament state used by witnesses. -/
def wData : ScoreboardData :=
  { scoreboard := [("A", freshRecord none), ("B", freshRecord none)],
    results := [], knockout := none }

/-- Concrete valid payload used by witnesses. -/
def wPayload : Payload :=
  { id := some "r0-m0", home := "A", away := "B", homeScore := "2", awayScore := "1" }

/-- Concrete result of applying wPayload to wData. -/
def wRes : ScoreboardData :=
  match updateMatchResult wData wPayload with
  | .ok d => d
  | .error _ => { scoreboard := [], results := [], knockout := none }

/-- Witness for claim C1 at a concrete two-team state. -/
theorem upsert_preserves_record_invariants_witness :
    updateMatchResult wData wPayload = .ok wRes ∧ scoreboardInvB wRes.scoreboard = true := by
  refine ⟨by decide, ?_⟩
  apply List.all_eq_true.mpr
  intro q hq
  exact decide_eq_true
    (upsert_preserves_record_invariants wData wPayload wRes (by decide) q hq)

theorem eraseP_id_not_mem {l : List MatchResult} {mid : String}
    (hnodup : (l.map (fun r => r.id)).Nodup) :
    mid ∉ (l.eraseP (fun r => r.id == mid)).map (fun r => r.id) := by
  induction l with
  | nil => simp [List.eraseP]
  | cons r rest ih =>
    simp only [List.map_cons, List.nodup_cons] at hnodup
    obtain ⟨hr, hrest⟩ := hnodup
    by_cases hid : r.id = mid
    · rw [List.eraseP_cons_of_pos (by simp [hid])]
      rw [← hid]
      exact hr
    · rw [List.eraseP_cons_of_neg (by simp [hid])]
      simp only [List.map_cons, List.mem_cons, not_or]
      exact ⟨fun hc => hid hc.symm, ih hrest⟩

/-- Claim C2: submitting a result whose resolved id is already in the
ledger replaces the prior entry: on a ledger with unique ids, the
length is unchanged, ids stay unique, the only entry with that id is
the new one, and the standings are recomputed from that ledger. -/
theorem upsert_same_id_replaces (d : ScoreboardData) (p : Payload) (h a : Int)
    (d' : ScoreboardData)
    (hph : parseIntDecimal p.homeScore = some h)
    (hpa : parseIntDecimal p.awayScore = some a)
    (hnodup : (d.results.map (fun r => r.id)).Nodup)
    (hmem : resolvedId p ∈ d.results.map (fun r => r.id))
    (hok : updateMatchResult d p = .ok d') :
    d'.results.length = d.results.length ∧
      (d'.results.map (fun r => r.id)).Nodup ∧
      d'.results.filter (fun r => r.id == resolvedId p) =
        [{ id := resolvedId p, home := p.home, away := p.away,
           homeScore := h.toNat, awayScore := a.toNat }] ∧
      d'.scoreboard = recomputeScoreboard d.scoreboard d'.results := by
  obtain ⟨hv, h2, a2, hph2, hpa2, hneg2, rfl⟩ := (updateMatchResult_ok_iff d p d').mp hok
  rw [hph] at hph2
  rw [hpa] at hpa2
  injection hph2 with hph2
  injection hpa2 with hpa2
  subst hph2
  subst hpa2
  refine ⟨?_, ?_, ?_, rfl⟩
  · obtain ⟨r0, hr0, hr0id⟩ := List.mem_map.mp hmem
    have hlen : ((d.results.eraseP (fun r => r.id == resolvedId p)).length + 1 =
        d.results.length) :=
      List.length_eraseP_add_one hr0 (by simp [hr0id])
    simp only [newLedger, List.length_append, List.length_singleton]
    omega
  · have hsub : ((d.results.eraseP (fun r => r.id == resolvedId p)).map
        (fun r => r.id)).Nodup :=
      ((List.eraseP_sublist _).map _).nodup hnodup
    simp only [newLedger, List.map_append, List.map_singleton]
    rw [List.nodup_append]
    refine ⟨hsub, List.nodup_singleton _, ?_⟩
    intro x hx
    simp only [List.mem_singleton]
    intro hc
    subst hc
    exact eraseP_id_not_mem hnodup hx
  · simp only [newLedger, List.filter_append]
    rw [List.filter_eq_nil_iff.mpr, List.nil_append]
    · simp
    · intro r hr
      have hnm : resolvedId p ∉
          (d.results.eraseP (fun r => r.id == resolvedId p)).map (fun r => r.id) :=
        eraseP_id_not_mem hnodup
      simp only [List.mem_map, not_exists, not_and] at hnm
      have hne := hnm r hr
      simp only [beq_iff_eq]
      exact fun hc => hne (by rw [hc])

/-- Concrete state with one prior result under the id that wPayload
resubmits. -/
def wData2 : ScoreboardData :=
  { scoreboard := [("A", freshRecord none), ("B", freshRecord none)],
    results := [{ id := "r0-m0", home := "A", away := "B", homeScore := 0, awayScore := 0 }],
    knockout := none }

/-- Concrete result of resubmitting wPayload on wData2. -/
def wRes2 : ScoreboardData :=
  match updateMatchResult wData2 wPayload with
  | .ok d => d
  | .error _ => { scoreboard := [], results := [], knockout := none }

/-- Witness for claim C2 at a concrete state with a prior entry. -/
theorem upsert_same_id_replaces_witness :
    wRes2.results.length = wData2.results.length ∧
      (wRes2.results.map (fun r => r.id)).Nodup ∧
      wRes2.results.filter (fun r => r.id == resolvedId wPayload) =
        [{ id := resolvedId wPayload, home := wPayload.home, away := wPayload.away,
           homeScore := (2 : Int).toNat, awayScore := (1 : Int).toNat }] ∧
      wRes2.scoreboard = recomputeScoreboard wData2.scoreboard wRes2.results :=
  upsert_same_id_replaces wData2 wPayload 2 1 wRes2 (by decide) (by decide)
    (by decide) (by decide) (by decide)

/-- Claim C8: when a bracket already exists, generatePlayoff returns it
with the stored state unchanged, whatever the schedule, result count or
team count. -/
theorem bracket_idempotent (schedule : List (List Fixture)) (d : ScoreboardData)
    (k : Knockout) (hk : d.knockout = some k) :
    generatePlayoff schedule d = .ok (k, d) := by
  unfold generatePlayoff
  rw [hk]

/-- Concrete bracket used by knockout witnesses. -/
def wBracket : Knockout :=
  { sf1 := { id := "sf1", home := some "A", away := some "D",
             homeScore := none, awayScore := none, winner := none }
    sf2 := { id := "sf2", home := some "B", away := some "C",
             homeScore := none, awayScore := none, winner := none }
    final := { id := "final", home := none, away := none,
               homeScore := none, awayScore := none, winner := none } }

/-- Concrete state that already stores a bracket but has an empty
ledger, so eligibility would fail if it were rechecked. -/
def wData3 : ScoreboardData :=
  { scoreboard := [("A", freshRecord none), ("B", freshRecord none)],
    results := [], knockout := some wBracket }

/-- Witness for claim C8: the stored bracket is returned unchanged even
though the state has fewer than four teams. -/
theorem bracket_idempotent_witness :
    generatePlayoff [[{ id := "r0-m0", home := "A", away := "B" }]] wData3 =
      .ok (wBracket, wData3) :=
  bracket_idempotent [[{ id := "r0-m0", home := "A", away := "B" }]] wData3 wBracket rfl

/-- Payload with the non-integer score 3.7, which parseInt truncates to
3 instead of rejecting. -/
def c9payload : Payload :=
  { id := some "m1", home := "A", away := "B", homeScore := "3.7", awayScore := "1" }

/-- Concrete result of submitting the 3.7 payload. -/
def c9res : ScoreboardData :=
  match updateMatchResult wData c9payload with
  | .ok d => d
  | .error _ => { scoreboard := [], results := [], knockout := none }

/-- Counterexample to claim C9 as stated: a payload whose homeScore is
the non-integer string 3.7 is accepted, not rejected; the ledger gains
an entry whose home score is the truncated value 3. -/
theorem upsert_accepts_noninteger_cex :
    updateMatchResult wData c9payload = .ok c9res ∧
    c9res.results = [{ id := "m1", home := "A", away := "B", homeScore := 3, awayScore := 1 }] := by
  decide

/-- Error message of a ledger operation, none on success. -/
def errMsgOf : Except String ScoreboardData → Option String
  | .error e => some e
  | .ok _ => none

/-- Score acceptance test actually implemented by updateMatchResult:
both raw values must parse through parseInt to a non-negative integer;
a non-integer numeric string such as 3.7 is truncated and accepted. -/
def scoresAccepted (p : Payload) : Bool :=
  match parseIntDecimal p.homeScore, parseIntDecimal p.awayScore with
  | some h, some a => decide (0 ≤ h) && decide (0 ≤ a)
  | _, _ => false

/-- Claim C9 as amended: with valid teams, upsertResult fails exactly
when a score fails to parse through parseInt or parses negative, and
every such failure carries the score validation message; since an error
returns no state, nothing is persisted on rejection.  Payloads whose
scores have a decimal-digit prefix, such as 3.7, are truncated by
parseInt and accepted. -/
theorem upsert_score_validation_amended (d : ScoreboardData) (p : Payload)
    (hv : ¬(p.home = "" ∨ p.away = "" ∨ p.home = p.away)) :
    errMsgOf (updateMatchResult d p) =
      (if scoresAccepted p then none else some "Scores must be non‑negative integers.") := by
  unfold updateMatchResult scoresAccepted
  rw [if_neg hv]
  cases hph : parseIntDecimal p.homeScore with
  | none => simp [errMsgOf]
  | some h =>
    cases hpa : parseIntDecimal p.awayScore with
    | none => simp [errMsgOf]
    | some a =>
      by_cases hneg : h < 0 ∨ a < 0
      · have hb : (decide (0 ≤ h) && decide (0 ≤ a)) = false := by
          rcases hneg with hh | ha
          · have hx : ¬ (0 ≤ h) := by omega
            simp [hx]
          · have hx : ¬ (0 ≤ a) := by omega
            simp [hx]
        simp [errMsgOf, hneg, hb]
      · have hb : (decide (0 ≤ h) && decide (0 ≤ a)) = true := by
          have h1 : 0 ≤ h := by omega
          have h2 : 0 ≤ a := by omega
          simp [h1, h2]
        simp [errMsgOf, hneg, hb]

/-- Match addressed by a knockout update id: the final on the exact id
final, otherwise the first semi final with a matching id (the find call
of updateKnockout). -/
def addressedMatch (k : Knockout) (id : String) : Option KnockoutMatch :=
  if id = "final" then some k.final
  else if k.sf1.id = id then some k.sf1
  else if k.sf2.id = id then some k.sf2
  else none

/-- Addressed match looked up inside stored scoreboard data. -/
def koMatch (d : ScoreboardData) (id : String) : Option KnockoutMatch :=
  match d.knockout with
  | none => none
  | some k => addressedMatch k id

/-- Winner of the addressed knockout match of stored data. -/
def koWinner (d : ScoreboardData) (id : String) : Option String :=
  match koMatch d id with
  | none => none
  | some m => m.winner

/-- Home slot of the stored final. -/
def koFinalHome (d : ScoreboardData) : Option String :=
  match d.knockout with
  | none => none
  | some k => k.final.home

/-- Away slot of the stored final. -/
def koFinalAway (d : ScoreboardData) : Option String :=
  match d.knockout with
  | none => none
  | some k => k.final.away

theorem setKnockoutResult_id (m : KnockoutMatch) (h a : Nat) :
    (setKnockoutResult m h a).id = m.id := rfl

theorem setKnockoutResult_home (m : KnockoutMatch) (h a : Nat) :
    (setKnockoutResult m h a).home = m.home := rfl

theorem setKnockoutResult_away (m : KnockoutMatch) (h a : Nat) :
    (setKnockoutResult m h a).away = m.away := rfl

/-- Claim C6: a valid knockout update on an existing semi final or the
final records the scores and sets the winner to the home team on a
strictly higher home score, the away team on a strictly lower one, and
the home team on a draw; and exactly when a semi final was updated,
both semi final winners are decided and the final slots were still
unset, the final is populated with semi final 1 winner as home and
semi final 2 winner as away. -/
theorem knockout_winner_and_final_population
    (d : ScoreboardData) (k : Knockout) (p : KnockoutPayload) (h a : Int)
    (m : KnockoutMatch) (d' : ScoreboardData)
    (hk : d.knockout = some k)
    (hph : parseIntDecimal p.homeScore = some h)
    (hpa : parseIntDecimal p.awayScore = some a)
    (hid : p.id ≠ "") (h0 : 0 ≤ h) (a0 : 0 ≤ a)
    (hsf1 : k.sf1.id = "sf1") (hsf2 : k.sf2.id = "sf2")
    (hm : addressedMatch k p.id = some m)
    (hok : updateKnockout d p = .ok d') :
    koMatch d' p.id =
      some { m with
             homeScore := some h.toNat
             awayScore := some a.toNat
             winner := if h.toNat > a.toNat then m.home
                       else if h.toNat < a.toNat then m.away else m.home } ∧
    koFinalHome d' = (if strStartsWith p.id "sf" && truthyO (koWinner d' "sf1")
        && truthyO (koWinner d' "sf2") && !truthyO k.final.home && !truthyO k.final.away
      then koWinner d' "sf1" else k.final.home) ∧
    koFinalAway d' = (if strStartsWith p.id "sf" && truthyO (koWinner d' "sf1")
        && truthyO (koWinner d' "sf2") && !truthyO k.final.home && !truthyO k.final.away
      then koWinner d' "sf2" else k.final.away) := by
  have hval : ¬(p.id = "" ∨ h < 0 ∨ a < 0) := by
    rintro (hc | hc | hc)
    · exact hid hc
    · omega
    · omega
  unfold updateKnockout at hok
  rw [hk, hph, hpa] at hok
  dsimp only at hok
  rw [if_neg hval] at hok
  unfold addressedMatch at hm
  by_cases hidf : p.id = "final"
  · rw [hidf] at hm hok ⊢
    rw [if_pos rfl] at hm hok
    injection hm with hm
    subst hm
    dsimp only at hok
    have hsw : strStartsWith "final" "sf" = false := by decide
    rw [hsw] at hok
    simp only [Bool.false_and] at hok
    rw [if_neg (by decide)] at hok
    injection hok with hok
    subst hok
    refine ⟨?_, ?_, ?_⟩
    · simp [koMatch, addressedMatch, setKnockoutResult]
    · simp [koFinalHome, setKnockoutResult_home, hsw]
    · simp [koFinalAway, setKnockoutResult_away, hsw]
  · rw [if_neg hidf] at hm hok
    by_cases hid1 : k.sf1.id = p.id
    · rw [if_pos hid1] at hm hok
      injection hm with hm
      subst hm
      have hp : p.id = "sf1" := by rw [← hid1, hsf1]
      rw [hp] at hok ⊢
      dsimp only at hok
      have hsw : strStartsWith "sf1" "sf" = true := by decide
      rw [hsw] at hok ⊢
      simp only [Bool.true_and] at hok ⊢
      by_cases hcond : (truthyO (setKnockoutResult k.sf1 h.toNat a.toNat).winner
          && truthyO k.sf2.winner && !truthyO k.final.home && !truthyO k.final.away) = true
      · rw [if_pos hcond] at hok
        injection hok with hok
        subst hok
        simp only [Bool.and_eq_true] at hcond
        obtain ⟨⟨⟨hw1, hw2⟩, hfh⟩, hfa⟩ := hcond
        refine ⟨?_, ?_, ?_⟩
        · simp [koMatch, addressedMatch, setKnockoutResult, hsf1]
        · simp [koFinalHome, koWinner, koMatch, addressedMatch,
            setKnockoutResult_id, hsf1, hsf2, hw1, hw2, hfh, hfa]
        · simp [koFinalAway, koWinner, koMatch, addressedMatch,
            setKnockoutResult_id, hsf1, hsf2, hw1, hw2, hfh, hfa]
      · rw [if_neg hcond] at hok
        injection hok with hok
        subst hok
        rw [Bool.not_eq_true] at hcond
        refine ⟨?_, ?_, ?_⟩
        · simp [koMatch, addressedMatch, setKnockoutResult, hsf1]
        · simp [koFinalHome, koWinner, koMatch, addressedMatch,
            setKnockoutResult_id, hsf1, hsf2, hcond]
        · simp [koFinalAway, koWinner, koMatch, addressedMatch,
            setKnockoutResult_id, hsf1, hsf2, hcond]
    · by_cases hid2 : k.sf2.id = p.id
      · rw [if_neg hid1, if_pos hid2] at hm
        rw [if_neg hid1, if_pos hid2] at hok
        injection hm with hm
        subst hm
        have hp : p.id = "sf2" := by rw [← hid2, hsf2]
        rw [hp] at hok ⊢
        dsimp only at hok
        have hsw : strStartsWith "sf2" "sf" = true := by decide
        rw [hsw] at hok ⊢
        simp only [Bool.true_and] at hok ⊢
        by_cases hcond : (truthyO k.sf1.winner
            && truthyO (setKnockoutResult k.sf2 h.toNat a.toNat).winner
            && !truthyO k.final.home && !truthyO k.final.away) = true
        · rw [if_pos hcond] at hok
          injection hok with hok
          subst hok
          simp only [Bool.and_eq_true] at hcond
          obtain ⟨⟨⟨hw1, hw2⟩, hfh⟩, hfa⟩ := hcond
          refine ⟨?_, ?_, ?_⟩
          · simp [koMatch, addressedMatch, setKnockoutResult, hsf1, hsf2]
          · simp [koFinalHome, koWinner, koMatch, addressedMatch,
              setKnockoutResult_id, hsf1, hsf2, hw1, hw2, hfh, hfa]
          · simp [koFinalAway, koWinner, koMatch, addressedMatch,
              setKnockoutResult_id, hsf1, hsf2, hw1, hw2, hfh, hfa]
        · rw [if_neg hcond] at hok
          injection hok with hok
          subst hok
          rw [Bool.not_eq_true] at hcond
          refine ⟨?_, ?_, ?_⟩
          · simp [koMatch, addressedMatch, setKnockoutResult, hsf1, hsf2]
          · simp [koFinalHome, koWinner, koMatch, addressedMatch,
              setKnockoutResult_id, hsf1, hsf2, hcond]
          · simp [koFinalAway, koWinner, koMatch, addressedMatch,
              setKnockoutResult_id, hsf1, hsf2, hcond]
      · rw [if_neg hid1, if_neg hid2] at hm
        exact Option.noConfusion hm

/-- Knockout payload recording a 2-1 home win in semi final 1. -/
def w6payload : KnockoutPayload := { id := "sf1", homeScore := "2", awayScore := "1" }

/-- Concrete state after recording the 2-1 semi final result. -/
def w6res : ScoreboardData :=
  match updateKnockout wData3 w6payload with
  | .ok d => d
  | .error _ => { scoreboard := [], results := [], knockout := none }

/-- Witness for claim C6: recording sf1 2-1 on the concrete bracket. -/
theorem knockout_winner_and_final_population_witness :
    koMatch w6res w6payload.id =
      some { wBracket.sf1 with
             homeScore := some (2 : Int).toNat
             awayScore := some (1 : Int).toNat
             winner := if (2 : Int).toNat > (1 : Int).toNat then wBracket.sf1.home
                       else if (2 : Int).toNat < (1 : Int).toNat then wBracket.sf1.away
                       else wBracket.sf1.home } ∧
    koFinalHome w6res = (if strStartsWith w6payload.id "sf" && truthyO (koWinner w6res "sf1")
        && truthyO (koWinner w6res "sf2") && !truthyO wBracket.final.home
        && !truthyO wBracket.final.away
      then koWinner w6res "sf1" else wBracket.final.home) ∧
    koFinalAway w6res = (if strStartsWith w6payload.id "sf" && truthyO (koWinner w6res "sf1")
        && truthyO (koWinner w6res "sf2") && !truthyO wBracket.final.home
        && !truthyO wBracket.final.away
      then koWinner w6res "sf2" else wBracket.final.away) :=
  knockout_winner_and_final_population wData3 wBracket w6payload 2 1 wBracket.sf1 w6res
    rfl (by decide) (by decide) (by decide) (by decide) (by decide)
    rfl rfl (by decide) (by decide)

/-- Check that a successful generatePlayoff call stores the bracket it
returns; vacuously true on an error. -/
def storesBracket : Except String (Knockout × ScoreboardData) → Bool
  | .ok (k, d') => d'.knockout == some k
  | .error _ => true

/-- Schedule with a single fixture, used by the C7 counterexample. -/
def c7schedule : List (List Fixture) := [[{ id := "r0-m0", home := "A", away := "B" }]]

/-- State with four teams and two recorded results against a
one-fixture schedule: the result count exceeds the fixture count. -/
def c7data : ScoreboardData :=
  { scoreboard := [("A", freshRecord none), ("B", freshRecord none),
                   ("C", freshRecord none), ("D", freshRecord none)],
    results := [{ id := "x", home := "A", away := "B", homeScore := 1, awayScore := 0 },
                { id := "y", home := "C", away := "D", homeScore := 1, awayScore := 0 }],
    knockout := none }

/-- Concrete bracket produced on the over-full ledger. -/
def c7res : Knockout × ScoreboardData :=
  match generatePlayoff c7schedule c7data with
  | .ok r => r
  | .error _ => (wBracket, c7data)

/-- Counterexample to claim C7 as stated: with two recorded results
against a one-fixture schedule the result count does not equal the
fixture count, yet generatePlayoff succeeds, because the code only
rejects a result count strictly below the fixture count. -/
theorem bracket_allows_excess_results_cex :
    c7data.results.length = 2 ∧ (c7schedule.map List.length).sum = 1 ∧
    generatePlayoff c7schedule c7data = .ok c7res := by
  decide

/-- Claim C7 as amended: when no bracket exists, generatePlayoff
succeeds exactly when the result count is at least (not necessarily
equal to) the total fixture count and at least four teams have
standings entries; on success the returned bracket is stored. -/
theorem bracket_eligibility_amended (schedule : List (List Fixture)) (d : ScoreboardData)
    (hk : d.knockout = none) :
    (generatePlayoff schedule d).toBool =
      decide ((schedule.map List.length).sum ≤ d.results.length ∧ 4 ≤ d.scoreboard.length) ∧
    storesBracket (generatePlayoff schedule d) = true := by
  unfold generatePlayoff
  rw [hk]
  dsimp only
  by_cases h1 : d.results.length < (schedule.map List.length).sum
  · rw [if_pos h1]
    have hd : ¬ ((schedule.map List.length).sum ≤ d.results.length ∧
        4 ≤ d.scoreboard.length) := by omega
    rw [decide_eq_false hd]
    exact ⟨rfl, rfl⟩
  · rw [if_neg h1]
    by_cases h2 : d.scoreboard.length < 4
    · rw [if_pos h2]
      have hd : ¬ ((schedule.map List.length).sum ≤ d.results.length ∧
          4 ≤ d.scoreboard.length) := by omega
      rw [decide_eq_false hd]
      exact ⟨rfl, rfl⟩
    · rw [if_neg h2]
      have hd : (schedule.map List.length).sum ≤ d.results.length ∧
          4 ≤ d.scoreboard.length := by omega
      rw [decide_eq_true hd]
      refine ⟨rfl, ?_⟩
      simp [storesBracket]

/-- Witness for the amended claim C7 at the concrete over-full state. -/
theorem bracket_eligibility_amended_witness :
    (generatePlayoff c7schedule c7data).toBool =
      decide ((c7schedule.map List.length).sum ≤ c7data.results.length ∧
        4 ≤ c7data.scoreboard.length) ∧
    storesBracket (generatePlayoff c7schedule c7data) = true :=
  bracket_eligibility_amended c7schedule c7data rfl

/-- Payload with a negative score, used by the C9 witness. -/
def c9negPayload : Payload :=
  { id := some "m1", home := "A", away := "B", homeScore := "-1", awayScore := "0" }

/-- Witness for the amended claim C9 at a payload with score -1. -/
theorem upsert_score_validation_amended_witness :
    errMsgOf (updateMatchResult wData c9negPayload) =
      (if scoresAccepted c9negPayload then none
       else some "Scores must be non‑negative integers.") :=
  upsert_score_validation_amended wData c9negPayload (by decide)

theorem orderedInsert_congr {α : Type} {r s : α → α → Prop}
    [DecidableRel r] [DecidableRel s]
    (hrs : ∀ x y, r x y ↔ s x y) (b : α) (l : List α) :
    l.orderedInsert r b = l.orderedInsert s b := by
  induction l with
  | nil => rfl
  | cons c cs ih =>
    simp only [List.orderedInsert]
    by_cases hr : r b c
    · rw [if_pos hr, if_pos ((hrs b c).mp hr)]
    · rw [if_neg hr, if_neg (fun hs => hr ((hrs b c).mpr hs)), ih]

theorem insertionSort_congr {α : Type} {r s : α → α → Prop}
    [DecidableRel r] [DecidableRel s]
    (hrs : ∀ x y, r x y ↔ s x y) (l : List α) :
    l.insertionSort r = l.insertionSort s := by
  induction l with
  | nil => rfl
  | cons b l ih =>
    simp only [List.insertionSort]
    rw [ih, orderedInsert_congr hrs]

/-- The comparator of generatePlayoff sorts ascending exactly in the
ranking order described by the specification. -/
theorem cmpStanding_le_iff_specLE (x y : Standing) :
    cmpStanding x y ≤ 0 ↔ specLE x y := by
  unfold cmpStanding specLE
  by_cases hpts : y.record.points ≠ x.record.points
  · rw [if_pos hpts]
    constructor
    · intro hle
      left
      omega
    · rintro (hlt | ⟨heq, -⟩)
      · omega
      · exact absurd heq hpts
  · rw [if_neg hpts]
    push_neg at hpts
    by_cases hgd : y.record.goalDifference ≠ x.record.goalDifference
    · rw [if_pos hgd]
      constructor
      · intro hle
        right
        exact ⟨hpts, Or.inl (by omega)⟩
      · rintro (hlt | ⟨-, hlt | ⟨heq, -⟩⟩)
        · omega
        · omega
        · exact absurd heq hgd
    · rw [if_neg hgd]
      push_neg at hgd
      by_cases hgf : y.record.goalsFor ≠ x.record.goalsFor
      · rw [if_pos hgf]
        constructor
        · intro hle
          right
          refine ⟨hpts, Or.inr ⟨hgd, Or.inl (by omega)⟩⟩
        · rintro (hlt | ⟨-, hlt | ⟨-, hlt | ⟨heq, -⟩⟩⟩)
          · omega
          · omega
          · omega
          · exact absurd heq hgf
      · rw [if_neg hgf]
        push_neg at hgf
        by_cases hlt : strLt x.team y.team = true
        · rw [if_pos hlt]
          constructor
          · intro _
            exact Or.inr ⟨hpts, Or.inr ⟨hgd, Or.inr ⟨hgf, Or.inl hlt⟩⟩⟩
          · intro _
            omega
        · rw [if_neg hlt]
          by_cases heq : x.team = y.team
          · rw [if_pos heq]
            constructor
            · intro _
              exact Or.inr ⟨hpts, Or.inr ⟨hgd, Or.inr ⟨hgf, Or.inr heq⟩⟩⟩
            · intro _
              omega
          · rw [if_neg heq]
            constructor
            · intro hc
              omega
            · rintro (hc | ⟨-, hc | ⟨-, hc | ⟨-, hc | hc⟩⟩⟩)
              · omega
              · omega
              · omega
              · exact absurd hc hlt
              · exact absurd hc heq

/-- The code sort equals the specification sort. -/
theorem sortStandings_eq_sortSpec (l : List Standing) :
    sortStandings l = sortSpec l :=
  insertionSort_congr cmpStanding_le_iff_specLE l

/-- Claim C5: a fresh successful generateBracket seeds semi final 1
with the 1st-ranked team at home against the 4th-ranked away, semi
final 2 with the 2nd-ranked at home against the 3rd-ranked away, and
creates the final with null home and away; ranking follows the spec
comparator order (descending points, goal difference, goals for, then
ascending team name), which the code comparator provably realizes. -/
theorem bracket_seeding_top4 (schedule : List (List Fixture)) (d : ScoreboardData)
    (k : Knockout) (d' : ScoreboardData)
    (hk : d.knockout = none)
    (hok : generatePlayoff schedule d = .ok (k, d')) :
    k.sf1 = { id := "sf1",
              home := some ((((sortSpec (d.scoreboard.map (fun q => Standing.mk q.1 q.2))).take 4).map
                (fun s => s.team)).getD 0 "")
              away := some ((((sortSpec (d.scoreboard.map (fun q => Standing.mk q.1 q.2))).take 4).map
                (fun s => s.team)).getD 3 "")
              homeScore := none, awayScore := none, winner := none } ∧
    k.sf2 = { id := "sf2",
              home := some ((((sortSpec (d.scoreboard.map (fun q => Standing.mk q.1 q.2))).take 4).map
                (fun s => s.team)).getD 1 "")
              away := some ((((sortSpec (d.scoreboard.map (fun q => Standing.mk q.1 q.2))).take 4).map
                (fun s => s.team)).getD 2 "")
              homeScore := none, awayScore := none, winner := none } ∧
    k.final = { id := "final", home := none, away := none,
                homeScore := none, awayScore := none, winner := none } := by
  unfold generatePlayoff at hok
  rw [hk] at hok
  dsimp only at hok
  by_cases h1 : d.results.length < (schedule.map List.length).sum
  · rw [if_pos h1] at hok
    exact Except.noConfusion hok
  · rw [if_neg h1] at hok
    by_cases h2 : d.scoreboard.length < 4
    · rw [if_pos h2] at hok
      exact Except.noConfusion hok
    · rw [if_neg h2] at hok
      injection hok with hok
      injection hok with hok1 hok2
      subst hok1
      rw [sortStandings_eq_sortSpec]
      exact ⟨rfl, rfl, rfl⟩

/-- Witness for claim C5 at the concrete eligible four-team state. -/
theorem bracket_seeding_top4_witness :
    c7res.1.sf1 = KnockoutMatch.mk "sf1"
      (some ((((sortSpec (c7data.scoreboard.map (fun q => Standing.mk q.1 q.2))).take 4).map
        (fun s => s.team)).getD 0 ""))
      (some ((((sortSpec (c7data.scoreboard.map (fun q => Standing.mk q.1 q.2))).take 4).map
        (fun s => s.team)).getD 3 ""))
      none none none ∧
    c7res.1.sf2 = KnockoutMatch.mk "sf2"
      (some ((((sortSpec (c7data.scoreboard.map (fun q => Standing.mk q.1 q.2))).take 4).map
        (fun s => s.team)).getD 1 ""))
      (some ((((sortSpec (c7data.scoreboard.map (fun q => Standing.mk q.1 q.2))).take 4).map
        (fun s => s.team)).getD 2 ""))
      none none none ∧
    c7res.1.final = KnockoutMatch.mk "final" none none none none none :=
  bracket_seeding_top4 c7schedule c7data c7res.1 c7res.2 rfl (by decide)

theorem lookupTeam_append_ne (sb : Scoreboard) (u : String) (r : TeamRecord) (t : String)
    (h : t ≠ u) : lookupTeam (sb ++ [(u, r)]) t = lookupTeam sb t := by
  induction sb with
  | nil =>
    simp only [List.nil_append, lookupTeam]
    rw [if_neg (fun hc => h hc.symm)]
  | cons p rest ih =>
    simp only [List.cons_append, lookupTeam]
    by_cases hp : p.1 = t
    · rw [if_pos hp, if_pos hp]
    · rw [if_neg hp, if_neg hp]
      exact ih

theorem lookupTeam_ensureTeam_ne (sb : Scoreboard) (u t : String) (h : t ≠ u) :
    lookupTeam (ensureTeam sb u) t = lookupTeam sb t := by
  unfold ensureTeam
  cases lookupTeam sb u with
  | some _ => rfl
  | none => exact lookupTeam_append_ne sb u (freshRecord none) t h

theorem lookupTeam_modifyTeam_ne (sb : Scoreboard) (u t : String) (f : TeamRecord → TeamRecord)
    (h : t ≠ u) : lookupTeam (modifyTeam sb u f) t = lookupTeam sb t := by
  induction sb with
  | nil => rfl
  | cons p rest ih =>
    by_cases hu : p.1 = u
    · simp only [modifyTeam, List.map_cons, if_pos hu, lookupTeam]
      rw [if_neg (by rw [hu]; exact fun hc => h hc.symm),
          if_neg (by rw [hu]; exact fun hc => h hc.symm)]
      exact ih
    · simp only [modifyTeam, List.map_cons, if_neg hu, lookupTeam]
      by_cases hp : p.1 = t
      · rw [if_pos hp, if_pos hp]
      · rw [if_neg hp, if_neg hp]
        exact ih

theorem lookupTeam_modifyTeam_self (sb : Scoreboard) (u : String) (f : TeamRecord → TeamRecord) :
    lookupTeam (modifyTeam sb u f) u = (lookupTeam sb u).map f := by
  induction sb with
  | nil => rfl
  | cons p rest ih =>
    by_cases hu : p.1 = u
    · simp only [modifyTeam, List.map_cons, if_pos hu, lookupTeam]
      rfl
    · simp only [modifyTeam, List.map_cons, if_neg hu, lookupTeam]
      exact ih

theorem lookupTeam_apply_other (sb : Scoreboard) (hm aw t : String) (hs as : Nat)
    (h1 : t ≠ hm) (h2 : t ≠ aw) :
    lookupTeam (applyMatchResult sb hm aw hs as) t = lookupTeam sb t := by
  unfold applyMatchResult
  rw [lookupTeam_modifyTeam_ne _ _ _ _ h2, lookupTeam_modifyTeam_ne _ _ _ _ h1,
      lookupTeam_ensureTeam_ne _ _ _ h2, lookupTeam_ensureTeam_ne _ _ _ h1]

theorem lookupTeam_fold_other (rs : List MatchResult) (sb : Scoreboard) (t : String)
    (h : ∀ r ∈ rs, t ≠ r.home ∧ t ≠ r.away) :
    lookupTeam
      (rs.foldl (fun sb r => applyMatchResult sb r.home r.away r.homeScore r.awayScore) sb) t =
      lookupTeam sb t := by
  induction rs generalizing sb with
  | nil => rfl
  | cons r rest ih =>
    simp only [List.foldl_cons]
    rw [ih _ (fun q hq => h q (List.mem_cons_of_mem _ hq))]
    exact lookupTeam_apply_other sb r.home r.away t r.homeScore r.awayScore
      (h r (List.mem_cons_self _ _)).1 (h r (List.mem_cons_self _ _)).2

theorem lookupTeam_initial (teams : List String) (logos : String → Option String) (t : String)
    (h : t ∈ teams) :
    lookupTeam (createInitialScoreboard teams logos) t = some (freshRecord (logos t)) := by
  induction teams with
  | nil => cases h
  | cons u rest ih =>
    simp only [createInitialScoreboard, List.map_cons, lookupTeam]
    by_cases hu : u = t
    · rw [if_pos hu, hu]
    · rw [if_neg hu]
      rcases List.mem_cons.mp h with hc | hc
      · exact absurd hc.symm hu
      · exact ih hc

theorem mem_addTeam_self (acc : List String) (t : String) : t ∈ addTeam acc t := by
  unfold addTeam
  split
  · assumption
  · exact List.mem_append_right _ (List.mem_singleton_self t)

theorem mem_addTeam_of_mem (acc : List String) (t x : String) (h : x ∈ acc) :
    x ∈ addTeam acc t := by
  unfold addTeam
  split
  · exact h
  · exact List.mem_append_left _ h

theorem lookupTeam_apply_both (sb : Scoreboard) (hm aw : String) (hs as : Nat)
    (r0 r1 : TeamRecord) (hne : hm ≠ aw)
    (h0 : lookupTeam sb hm = some r0) (h1 : lookupTeam sb aw = some r1) :
    lookupTeam (applyMatchResult sb hm aw hs as) hm = some (updateHomeRecord r0 hs as) ∧
    lookupTeam (applyMatchResult sb hm aw hs as) aw = some (updateAwayRecord r1 hs as) := by
  have e1 : ensureTeam sb hm = sb := by unfold ensureTeam; rw [h0]
  have e2 : ensureTeam sb aw = sb := by unfold ensureTeam; rw [h1]
  unfold applyMatchResult
  rw [e1, e2]
  constructor
  · rw [lookupTeam_modifyTeam_ne _ _ _ _ hne, lookupTeam_modifyTeam_self, h0]
    rfl
  · rw [lookupTeam_modifyTeam_self, lookupTeam_modifyTeam_ne _ _ _ _ (fun hc => hne hc.symm), h1]
    rfl

theorem mem_gatherTeams_last (existing : List String) (l : List MatchResult) (r : MatchResult) :
    r.home ∈ gatherTeams existing (l ++ [r]) ∧ r.away ∈ gatherTeams existing (l ++ [r]) := by
  unfold gatherTeams
  rw [List.foldl_append]
  simp only [List.foldl_cons, List.foldl_nil]
  exact ⟨mem_addTeam_of_mem _ _ _ (mem_addTeam_self _ _), mem_addTeam_self _ _⟩

/-- New ledger entry built by updateMatchResult from a payload and the
parsed scores. -/
def newEntry (p : Payload) (h a : Int) : MatchResult :=
  { id := resolvedId p, home := p.home, away := p.away,
    homeScore := h.toNat, awayScore := a.toNat }

/-- Claim C10: upsertResult never checks the match id or team names
against the schedule: with valid teams and scores it succeeds on a
payload whose id matches no prior result and whose teams are unknown to
the tournament, appends the result (growing the ledger that
generatePlayoff counts), and gives both unknown teams standings records
built from a fresh zero record updated with just this result. -/
theorem upsert_ignores_schedule (d : ScoreboardData) (p : Payload) (h a : Int)
    (d' : ScoreboardData)
    (hph : parseIntDecimal p.homeScore = some h)
    (hpa : parseIntDecimal p.awayScore = some a)
    (hidfresh : ∀ r ∈ d.results, r.id ≠ resolvedId p)
    (hhome : ∀ r ∈ d.results, p.home ≠ r.home ∧ p.home ≠ r.away)
    (haway : ∀ r ∈ d.results, p.away ≠ r.home ∧ p.away ≠ r.away)
    (hhk : lookupTeam d.scoreboard p.home = none)
    (hak : lookupTeam d.scoreboard p.away = none)
    (hok : updateMatchResult d p = .ok d') :
    d'.results.length = d.results.length + 1 ∧
    lookupTeam d'.scoreboard p.home = some (updateHomeRecord (freshRecord none) h.toNat a.toNat) ∧
    lookupTeam d'.scoreboard p.away = some (updateAwayRecord (freshRecord none) h.toNat a.toNat) := by
  obtain ⟨hv, h2, a2, hph2, hpa2, hneg2, rfl⟩ := (updateMatchResult_ok_iff d p d').mp hok
  rw [hph] at hph2
  rw [hpa] at hpa2
  injection hph2 with e1
  injection hpa2 with e2
  subst e1
  subst e2
  push_neg at hv
  obtain ⟨hv1, hv2, hv3⟩ := hv
  have herase : d.results.eraseP (fun r => r.id == resolvedId p) = d.results :=
    List.eraseP_of_forall_not (fun r hr => by
      simp only [beq_iff_eq]
      exact hidfresh r hr)
  refine ⟨?_, ?_⟩
  · simp only [newLedger, herase, List.length_append, List.length_singleton]
  · unfold newLedger recomputeScoreboard
    rw [herase]
    dsimp only
    rw [List.foldl_append]
    simp only [List.foldl_cons, List.foldl_nil]
    have hmem : p.home ∈ gatherTeams (d.scoreboard.map (fun q => q.1))
          (d.results ++ [newEntry p h a]) ∧
        p.away ∈ gatherTeams (d.scoreboard.map (fun q => q.1))
          (d.results ++ [newEntry p h a]) :=
      mem_gatherTeams_last (d.scoreboard.map (fun q => q.1)) d.results (newEntry p h a)
    have hlogoh : carriedLogos d.scoreboard p.home = none := by
      unfold carriedLogos
      rw [hhk]
    have hlogoa : carriedLogos d.scoreboard p.away = none := by
      unfold carriedLogos
      rw [hak]
    have hmidh : lookupTeam
        (d.results.foldl (fun sb r => applyMatchResult sb r.home r.away r.homeScore r.awayScore)
          (createInitialScoreboard
            (gatherTeams (d.scoreboard.map (fun q => q.1)) (d.results ++ [newEntry p h a]))
            (carriedLogos d.scoreboard))) p.home = some (freshRecord none) := by
      rw [lookupTeam_fold_other _ _ _ hhome,
          lookupTeam_initial _ _ _ hmem.1, hlogoh]
    have hmida : lookupTeam
        (d.results.foldl (fun sb r => applyMatchResult sb r.home r.away r.homeScore r.awayScore)
          (createInitialScoreboard
            (gatherTeams (d.scoreboard.map (fun q => q.1)) (d.results ++ [newEntry p h a]))
            (carriedLogos d.scoreboard))) p.away = some (freshRecord none) := by
      rw [lookupTeam_fold_other _ _ _ haway,
          lookupTeam_initial _ _ _ hmem.2, hlogoa]
    exact lookupTeam_apply_both _ p.home p.away h.toNat a.toNat _ _ hv3 hmidh hmida

/-- Payload naming two teams unknown to the tournament under an id that
matches no scheduled fixture. -/
def c10payload : Payload :=
  { id := some "zz", home := "C", away := "D", homeScore := "1", awayScore := "0" }

/-- Concrete result of the unknown-team upsert on wData. -/
def c10res : ScoreboardData :=
  match updateMatchResult wData c10payload with
  | .ok d => d
  | .error _ => { scoreboard := [], results := [], knockout := none }

/-- Witness for claim C10 at a concrete state with teams A and B and an
upsert for unknown teams C and D under the unscheduled id zz. -/
theorem upsert_ignores_schedule_witness :
    c10res.results.length = wData.results.length + 1 ∧
    lookupTeam c10res.scoreboard "C" =
      some (updateHomeRecord (freshRecord none) (1 : Int).toNat (0 : Int).toNat) ∧
    lookupTeam c10res.scoreboard "D" =
      some (updateAwayRecord (freshRecord none) (1 : Int).toNat (0 : Int).toNat) :=
  upsert_ignores_schedule wData c10payload 1 0 c10res (by decide) (by decide)
    (by decide) (by decide) (by decide) (by decide) (by decide) (by decide)

/-- Big-endian decimal digit characters of a natural number, the
reference form of the digits produced by the Nat printer. -/
def natDigits (n : Nat) : List Char :=
  if h : n < 10 then [Nat.digitChar n]
  else natDigits (n / 10) ++ [Nat.digitChar (n % 10)]
decreasing_by exact Nat.div_lt_self (by omega) (by omega)

theorem toDigitsCore_eq_natDigits (fuel : Nat) :
    ∀ (n : Nat) (ds : List Char), n < fuel →
      Nat.toDigitsCore 10 fuel n ds = natDigits n ++ ds := by
  induction fuel with
  | zero => omega
  | succ f ih =>
    intro n ds hf
    unfold Nat.toDigitsCore
    dsimp only
    by_cases h0 : n / 10 = 0
    · rw [if_pos h0]
      have hn : n < 10 := by omega
      rw [natDigits, dif_pos hn, Nat.mod_eq_of_lt hn]
      rfl
    · rw [if_neg h0]
      have hlt : n / 10 < f := by omega
      rw [ih (n / 10) _ hlt]
      conv_rhs => rw [natDigits]
      rw [dif_neg (by omega : ¬ n < 10), List.append_assoc]
      rfl

theorem data_asString (l : List Char) : l.asString.data = l := rfl

theorem repr_eq_natDigits (n : Nat) : Nat.repr n = (natDigits n).asString := by
  unfold Nat.repr Nat.toDigits
  rw [toDigitsCore_eq_natDigits (n + 1) n [] (Nat.lt_succ_self n)]
  rw [List.append_nil]

theorem digitsVal_append_one (l : List Char) (c : Char) :
    digitsVal (l ++ [c]) = 10 * digitsVal l + (c.toNat - '0'.toNat) := by
  unfold digitsVal
  rw [List.foldl_append]
  rfl

theorem digitsVal_natDigits (n : Nat) : digitsVal (natDigits n) = n := by
  have hval : ∀ k, k < 10 → (Nat.digitChar k).toNat - '0'.toNat = k := by decide
  induction n using Nat.strong_induction_on with
  | _ n ih =>
    rw [natDigits]
    by_cases h : n < 10
    · rw [dif_pos h]
      show 10 * 0 + ((Nat.digitChar n).toNat - '0'.toNat) = n
      rw [hval n h]
      omega
    · rw [dif_neg h]
      rw [digitsVal_append_one,
          ih (n / 10) (Nat.div_lt_self (by omega) (by omega)),
          hval (n % 10) (Nat.mod_lt n (by omega))]
      omega

theorem natDigits_inj {m n : Nat} (h : natDigits m = natDigits n) : m = n := by
  rw [← digitsVal_natDigits m, ← digitsVal_natDigits n, h]

theorem natDigits_isDigit (n : Nat) : ∀ c ∈ natDigits n, c.isDigit = true := by
  have hdig : ∀ k, k < 10 → (Nat.digitChar k).isDigit = true := by decide
  induction n using Nat.strong_induction_on with
  | _ n ih =>
    rw [natDigits]
    by_cases h : n < 10
    · rw [dif_pos h]
      intro c hc
      rcases List.mem_singleton.mp hc with rfl
      exact hdig n h
    · rw [dif_neg h]
      intro c hc
      rcases List.mem_append.mp hc with hc | hc
      · exact ih (n / 10) (Nat.div_lt_self (by omega) (by omega)) c hc
      · rcases List.mem_singleton.mp hc with rfl
        exact hdig (n % 10) (Nat.mod_lt n (by omega))

theorem natDigits_not_dash (n : Nat) : '-' ∉ natDigits n := by
  intro hc
  have := natDigits_isDigit n '-' hc
  exact absurd this (by decide)

theorem append_sep_inj {c : Char} {l1 r1 l2 r2 : List Char}
    (h1 : c ∉ l1) (h2 : c ∉ l2) (h : l1 ++ c :: r1 = l2 ++ c :: r2) :
    l1 = l2 ∧ r1 = r2 := by
  induction l1 generalizing l2 with
  | nil =>
    cases l2 with
    | nil => simpa using h
    | cons d l2' =>
      simp only [List.nil_append, List.cons_append, List.cons.injEq] at h
      exact absurd (by rw [h.1]; exact List.mem_cons_self d l2') h2
  | cons x l1' ih =>
    cases l2 with
    | nil =>
      simp only [List.cons_append, List.nil_append, List.cons.injEq] at h
      exact absurd (by rw [← h.1]; exact List.mem_cons_self x l1') h1
    | cons y l2' =>
      simp only [List.cons_append, List.cons.injEq] at h
      obtain ⟨hxy, h'⟩ := h
      have hr := ih (fun hc => h1 (List.mem_cons_of_mem _ hc))
        (fun hc => h2 (List.mem_cons_of_mem _ hc)) h'
      exact ⟨by rw [hxy, hr.1], hr.2⟩

/-- The fixture id template is injective in the round and loop
indices. -/
theorem encodeId_inj {r1 i1 r2 i2 : Nat} (h : encodeId r1 i1 = encodeId r2 i2) :
    r1 = r2 ∧ i1 = i2 := by
  unfold encodeId at h
  have hd := congrArg String.data h
  simp only [String.data_append, repr_eq_natDigits, data_asString] at hd
  have hd' : natDigits r1 ++ '-' :: 'm' :: natDigits i1 =
      natDigits r2 ++ '-' :: 'm' :: natDigits i2 := by
    have : ∀ (l l' : List Char), ('r'.toString.data ++ l = 'r'.toString.data ++ l') → l = l' := by
      intro l l' he
      simpa using he
    simpa using hd
  obtain ⟨e1, e2⟩ := append_sep_inj (natDigits_not_dash r1) (natDigits_not_dash r2) hd'
  injection e2 with _ e2
  exact ⟨natDigits_inj e1, natDigits_inj e2⟩

theorem rotateOnce_perm (l : List (Option String)) : (rotateOnce l).Perm l := by
  cases l with
  | nil => exact List.Perm.refl _
  | cons x xs =>
    show (match xs.getLast? with
          | none => [x]
          | some last => x :: last :: xs.dropLast).Perm (x :: xs)
    cases hxs : xs.getLast? with
    | none =>
      have hxe : xs = [] := List.getLast?_eq_none_iff.mp hxs
      rw [hxe]
    | some last =>
      have hdrop : xs.dropLast ++ [last] = xs := List.dropLast_append_getLast? last hxs
      refine List.Perm.cons x ?_
      conv_rhs => rw [← hdrop]
      exact (List.perm_append_singleton _ _).symm

theorem rotateOnce_length (l : List (Option String)) : (rotateOnce l).length = l.length :=
  (rotateOnce_perm l).length_eq

theorem getD_mem_of_lt {α : Type} (l : List α) (i : Nat) (d : α) (h : i < l.length) :
    l.getD i d ∈ l := by
  rw [List.getD_eq_getElem?_getD, List.getElem?_eq_getElem h]
  exact List.getElem_mem h

theorem length_filterMap_eq_countP {α β : Type} (f : α → Option β) (l : List α) :
    (l.filterMap f).length = l.countP (fun a => (f a).isSome) := by
  induction l with
  | nil => rfl
  | cons a rest ih =>
    cases hfa : f a with
    | none =>
      rw [List.filterMap_cons_none hfa, List.countP_cons]
      simp [hfa, ih]
    | some b =>
      rw [List.filterMap_cons_some hfa, List.length_cons, List.countP_cons]
      simp [hfa, ih]

theorem filterMap_eq_map_of_some {α β : Type} (f : α → Option β) (g : α → β) (l : List α)
    (h : ∀ a ∈ l, f a = some (g a)) : l.filterMap f = l.map g := by
  induction l with
  | nil => rfl
  | cons a rest ih =>
    rw [List.filterMap_cons_some (h a (List.mem_cons_self _ _)), List.map_cons,
        ih (fun a ha => h a (List.mem_cons_of_mem _ ha))]

theorem roundMatches_length_all (l : List (Option String)) (r : Nat)
    (hall : ∀ x ∈ l, truthyO x = true) :
    (roundMatches l r).length = l.length / 2 := by
  unfold roundMatches
  rw [length_filterMap_eq_countP]
  refine Eq.trans (List.countP_eq_length.mpr ?_) (List.length_range _)
  intro i hi
  have hi2 : i < l.length / 2 := List.mem_range.mp hi
  have hin : i < l.length := by
    have := Nat.div_le_self l.length 2
    omega
  have hin2 : l.length - 1 - i < l.length := by omega
  have hh := hall _ (getD_mem_of_lt l i none hin)
  have ha := hall _ (getD_mem_of_lt l (l.length - 1 - i) none hin2)
  cases hgi : l.getD i none with
  | none => rw [hgi] at hh; exact absurd hh (by decide)
  | some sh =>
    cases hga : l.getD (l.length - 1 - i) none with
    | none => rw [hga] at ha; exact absurd ha (by decide)
    | some sa =>
      rw [hgi] at hh
      rw [hga] at ha
      simp only [truthyO, ne_eq, decide_eq_true_eq] at hh ha
      simp [hgi, hga, hh, ha]

theorem exists_unique_null_idx (l : List (Option String)) (h : l.count none = 1) :
    ∃ j, j < l.length ∧ l.getD j none = none ∧
      ∀ k, k < l.length → l.getD k none = none → k = j := by
  induction l with
  | nil => simp at h
  | cons x xs ih =>
    by_cases hx : x = none
    · subst hx
      have hxs : xs.count none = 0 := by
        rw [List.count_cons] at h
        simp at h
        omega
      have hnone : none ∉ xs := List.count_eq_zero.mp hxs
      refine ⟨0, by simp, rfl, ?_⟩
      intro k hk hget
      cases k with
      | zero => rfl
      | succ k' =>
        rw [List.getD_cons_succ] at hget
        have hmem := getD_mem_of_lt xs k' none (by simp at hk; omega)
        rw [hget] at hmem
        exact absurd hmem hnone
    · have hxs : xs.count none = 1 := by
        rw [List.count_cons] at h
        simp [hx] at h
        omega
      obtain ⟨j, hj1, hj2, hj3⟩ := ih hxs
      refine ⟨j + 1, by simp; omega, by rw [List.getD_cons_succ]; exact hj2, ?_⟩
      intro k hk hget
      cases k with
      | zero =>
        rw [List.getD_cons_zero] at hget
        exact absurd hget hx
      | succ k' =>
        rw [List.getD_cons_succ] at hget
        have := hj3 k' (by simp at hk; omega) hget
        omega

theorem roundMatches_length_one_null (l : List (Option String)) (r : Nat)
    (heven : l.length % 2 = 0) (hcnt : l.count none = 1)
    (hne : ∀ s, some s ∈ l → s ≠ "") :
    (roundMatches l r).length = l.length / 2 - 1 := by
  obtain ⟨j, hj, hjnull, huniq⟩ := exists_unique_null_idx l hcnt
  obtain ⟨i0, hi0def⟩ : ∃ i0, i0 = if j < l.length / 2 then j else l.length - 1 - j :=
    ⟨_, rfl⟩
  have hi0 : i0 < l.length / 2 := by
    rw [hi0def]
    split
    · assumption
    · omega
  unfold roundMatches
  rw [length_filterMap_eq_countP]
  have h1 : (List.range (l.length / 2)).count i0 = 1 :=
    List.count_eq_one_of_mem (List.nodup_range _) (List.mem_range.mpr hi0)
  have h2 : (List.range (l.length / 2)).length =
      (List.range (l.length / 2)).count i0 +
      List.countP (fun a => ¬((fun i => i == i0) a)) (List.range (l.length / 2)) :=
    List.length_eq_countP_add_countP (fun i => i == i0) (List.range (l.length / 2))
  have h3 : List.countP (fun i => !(i == i0)) (List.range (l.length / 2)) =
      List.countP (fun a => ¬((fun i => i == i0) a)) (List.range (l.length / 2)) :=
    List.countP_congr (fun a _ => by simp)
  have htarget : List.countP (fun i => !(i == i0)) (List.range (l.length / 2)) =
      l.length / 2 - 1 := by
    rw [h3]
    have h4 := List.length_range (l.length / 2)
    omega
  refine Eq.trans (List.countP_congr ?_) htarget
  intro i hi
  have hi2 : i < l.length / 2 := List.mem_range.mp hi
  have hin : i < l.length := by
    have := Nat.div_le_self l.length 2
    omega
  have hin2 : l.length - 1 - i < l.length := by omega
  by_cases hii : i = i0
  · subst hii
    have hnull : l.getD i none = none ∨ l.getD (l.length - 1 - i) none = none := by
      rw [hi0def]
      split
      · exact Or.inl hjnull
      · have he : l.length - 1 - (l.length - 1 - j) = j := by omega
        rw [he]
        exact Or.inr hjnull
    rcases hnull with hn | hn
    · cases hga : l.getD (l.length - 1 - i) none with
      | none =>
        rw [hn]
        simp
      | some sa =>
        rw [hn]
        simp
    · cases hgi : l.getD i none with
      | none =>
        rw [hn]
        simp
      | some sh =>
        rw [hn]
        simp
  · have hgi : l.getD i none ≠ none := by
      intro hc
      have hij := huniq i hin hc
      apply hii
      rw [hi0def, if_pos (by omega : j < l.length / 2)]
      omega
    have hga : l.getD (l.length - 1 - i) none ≠ none := by
      intro hc
      have hij := huniq (l.length - 1 - i) hin2 hc
      apply hii
      rw [hi0def, if_neg (by omega : ¬ j < l.length / 2)]
      omega
    cases hgih : l.getD i none with
    | none => exact absurd hgih hgi
    | some sh =>
      cases hgah : l.getD (l.length - 1 - i) none with
      | none => exact absurd hgah hga
      | some sa =>
        have hsh : sh ≠ "" := hne sh (by rw [← hgih]; exact getD_mem_of_lt l i none hin)
        have hsa : sa ≠ "" := hne sa (by rw [← hgah]; exact getD_mem_of_lt l _ none hin2)
        simp [hgih, hgah, hsh, hsa, hii]

theorem scheduleRounds_length (l : List (Option String)) (r fuel : Nat) :
    (scheduleRounds l r fuel).length = fuel := by
  induction fuel generalizing l r with
  | zero => rfl
  | succ f ih =>
    simp only [scheduleRounds, List.length_cons, ih]

theorem scheduleRounds_sum_all (fuel : Nat) :
    ∀ (l : List (Option String)) (r : Nat), (∀ x ∈ l, truthyO x = true) →
      ((scheduleRounds l r fuel).map List.length).sum = fuel * (l.length / 2) := by
  induction fuel with
  | zero =>
    intro l r _
    simp [scheduleRounds]
  | succ f ih =>
    intro l r hall
    simp only [scheduleRounds, List.map_cons, List.sum_cons]
    rw [roundMatches_length_all l r hall,
        ih (rotateOnce l) (r + 1) (fun x hx => hall x ((rotateOnce_perm l).subset hx)),
        rotateOnce_length, Nat.succ_mul]
    omega

theorem scheduleRounds_sum_one_null (fuel : Nat) :
    ∀ (l : List (Option String)) (r : Nat), l.length % 2 = 0 → l.count none = 1 →
      (∀ s, some s ∈ l → s ≠ "") →
      ((scheduleRounds l r fuel).map List.length).sum = fuel * (l.length / 2 - 1) := by
  induction fuel with
  | zero =>
    intro l r _ _ _
    simp [scheduleRounds]
  | succ f ih =>
    intro l r heven hcnt hne
    simp only [scheduleRounds, List.map_cons, List.sum_cons]
    rw [roundMatches_length_one_null l r heven hcnt hne,
        ih (rotateOnce l) (r + 1)
          (by rw [rotateOnce_length]; exact heven)
          (by exact Eq.trans (List.Perm.countP_eq (fun x => x == none) (rotateOnce_perm l)) hcnt)
          (fun s hs => hne s ((rotateOnce_perm l).subset hs)),
        rotateOnce_length, Nat.succ_mul]
    omega

theorem roundMatches_mem (l : List (Option String)) (r : Nat) (f : Fixture)
    (hf : f ∈ roundMatches l r) : some f.home ∈ l ∧ some f.away ∈ l := by
  unfold roundMatches at hf
  rcases List.mem_filterMap.mp hf with ⟨i, hi, hfi⟩
  have hi2 : i < l.length / 2 := List.mem_range.mp hi
  have hin : i < l.length := by
    have := Nat.div_le_self l.length 2
    omega
  have hin2 : l.length - 1 - i < l.length := by omega
  cases hgi : l.getD i none with
  | none =>
    rw [hgi] at hfi
    exact absurd hfi (by simp)
  | some sh =>
    cases hga : l.getD (l.length - 1 - i) none with
    | none =>
      rw [hgi, hga] at hfi
      exact absurd hfi (by simp)
    | some sa =>
      rw [hgi, hga] at hfi
      dsimp only at hfi
      by_cases hemp : sh = "" ∨ sa = ""
      · rw [if_pos hemp] at hfi
        exact absurd hfi (by simp)
      · rw [if_neg hemp] at hfi
        injection hfi with hfi
        subst hfi
        constructor
        · rw [← hgi]
          exact getD_mem_of_lt l i none hin
        · rw [← hga]
          exact getD_mem_of_lt l _ none hin2

theorem scheduleRounds_mem (fuel : Nat) :
    ∀ (l : List (Option String)) (r : Nat) (round : List Fixture) (f : Fixture),
      round ∈ scheduleRounds l r fuel → f ∈ round →
      some f.home ∈ l ∧ some f.away ∈ l := by
  induction fuel with
  | zero => intro l r round f hr _; cases hr
  | succ fl ih =>
    intro l r round f hr hf
    rcases List.mem_cons.mp hr with hr | hr
    · subst hr
      exact roundMatches_mem l r f hf
    · have := ih (rotateOnce l) (r + 1) round f hr hf
      exact ⟨(rotateOnce_perm l).subset this.1, (rotateOnce_perm l).subset this.2⟩

/-- Decidable check that every fixture of the schedule pairs two teams
from the input list (so no fixture contains the bye placeholder). -/
def fixturesFromTeams (teams : List String) (s : List (List Fixture)) : Bool :=
  s.all (fun round => round.all (fun f => decide (f.home ∈ teams) && decide (f.away ∈ teams)))

theorem odd_fixture_arith (m k : Nat) (hm : m = 2 * k + 1) :
    m * ((m + 1) / 2 - 1) = m * (m - 1) / 2 := by
  subst hm
  have e1 : (2 * k + 1 + 1) / 2 = k + 1 := by omega
  have e2 : 2 * k + 1 - 1 = 2 * k := by omega
  rw [e1, e2]
  have e3 : (2 * k + 1) * (2 * k) = 2 * ((2 * k + 1) * k) := by ring
  rw [e3, Nat.mul_div_cancel_left _ (by omega : 0 < 2)]
  have e4 : k + 1 - 1 = k := by omega
  rw [e4]

theorem even_fixture_arith (m k : Nat) (hm : m = 2 * k) :
    (m - 1) * (m / 2) = m * (m - 1) / 2 := by
  subst hm
  have e1 : 2 * k / 2 = k := by omega
  rw [e1]
  have e3 : 2 * k * (2 * k - 1) = 2 * ((2 * k - 1) * k) := by ring
  rw [e3, Nat.mul_div_cancel_left _ (by omega : 0 < 2)]

/-- Claim C3: generateSchedule produces n-1 rounds, n counting the
synthetic bye for odd team counts, and exactly len*(len-1)/2 fixtures
in total (the same closed form for even and odd input counts), with no
fixture pairing the bye: every fixture is between two input teams. -/
theorem schedule_round_and_fixture_counts (teams : List String)
    (h2 : 2 ≤ teams.length) (hne : ∀ t ∈ teams, t ≠ "") :
    (generateSchedule teams).length =
      (if teams.length % 2 = 0 then teams.length else teams.length + 1) - 1 ∧
    ((generateSchedule teams).map List.length).sum = teams.length * (teams.length - 1) / 2 ∧
    fixturesFromTeams teams (generateSchedule teams) = true := by
  unfold generateSchedule
  dsimp only
  simp only [List.length_map]
  by_cases hodd : teams.length % 2 = 1
  · rw [if_pos hodd]
    have hlen : (teams.map some ++ [none]).length = teams.length + 1 := by simp
    have hcnt : (teams.map some ++ [none]).count none = 1 := by
      rw [List.count_append]
      have h0 : (teams.map some).count none = 0 := by
        rw [List.count_eq_zero]
        intro hc
        rcases List.mem_map.mp hc with ⟨t, -, hte⟩
        exact Option.noConfusion hte
      rw [h0]
      rfl
    have heven : (teams.map some ++ [none]).length % 2 = 0 := by
      rw [hlen]
      omega
    have hne' : ∀ s, some s ∈ teams.map some ++ [none] → s ≠ "" := by
      intro s hs
      rcases List.mem_append.mp hs with hs | hs
      · rcases List.mem_map.mp hs with ⟨t, ht, hte⟩
        injection hte with hte
        subst hte
        exact hne t ht
      · rcases List.mem_singleton.mp hs with hs
        exact Option.noConfusion hs
    refine ⟨?_, ?_, ?_⟩
    · rw [scheduleRounds_length, hlen, if_neg (by omega)]
    · rw [scheduleRounds_sum_one_null _ _ _ heven hcnt hne', hlen]
      have hf : teams.length + 1 - 1 = teams.length := by omega
      rw [hf]
      exact odd_fixture_arith teams.length (teams.length / 2) (by omega)
    · rw [fixturesFromTeams, List.all_eq_true]
      intro round hr
      rw [List.all_eq_true]
      intro f hf
      have hmem := scheduleRounds_mem _ _ _ round f hr hf
      have hget : ∀ t : String, some t ∈ teams.map some ++ [none] → t ∈ teams := by
        intro t ht
        rcases List.mem_append.mp ht with ht | ht
        · rcases List.mem_map.mp ht with ⟨u, hu, hue⟩
          injection hue with hue
          subst hue
          exact hu
        · rcases List.mem_singleton.mp ht with ht
          exact Option.noConfusion ht
      simp [hget f.home hmem.1, hget f.away hmem.2]
  · rw [if_neg hodd]
    have hall : ∀ x ∈ teams.map some, truthyO x = true := by
      intro x hx
      rcases List.mem_map.mp hx with ⟨t, ht, hte⟩
      subst hte
      simp [truthyO, hne t ht]
    refine ⟨?_, ?_, ?_⟩
    · rw [scheduleRounds_length, List.length_map, if_pos (by omega)]
    · rw [scheduleRounds_sum_all _ _ _ hall, List.length_map]
      exact even_fixture_arith teams.length (teams.length / 2) (by omega)
    · rw [fixturesFromTeams, List.all_eq_true]
      intro round hr
      rw [List.all_eq_true]
      intro f hf
      have hmem := scheduleRounds_mem _ _ _ round f hr hf
      have hget : ∀ t : String, some t ∈ teams.map some → t ∈ teams := by
        intro t ht
        rcases List.mem_map.mp ht with ⟨u, hu, hue⟩
        injection hue with hue
        subst hue
        exact hu
      simp [hget f.home hmem.1, hget f.away hmem.2]

/-- Witness for claim C3 at a three-team list (odd count, bye added). -/
theorem schedule_round_and_fixture_counts_witness :
    (generateSchedule ["A", "B", "C"]).length =
      (if (3 : Nat) % 2 = 0 then 3 else 3 + 1) - 1 ∧
    ((generateSchedule ["A", "B", "C"]).map List.length).sum = 3 * (3 - 1) / 2 ∧
    fixturesFromTeams ["A", "B", "C"] (generateSchedule ["A", "B", "C"]) = true :=
  schedule_round_and_fixture_counts ["A", "B", "C"] (by decide) (by decide)

/-- Pairing attempted at loop index i of a round: the two participants
at i and n-1-i, kept only when both are truthy. -/
def pairAt (l : List (Option String)) (r i : Nat) : Option Fixture :=
  match l.getD i none, l.getD (l.length - 1 - i) none with
  | some h, some a =>
    if h = "" ∨ a = "" then none else some { id := encodeId r i, home := h, away := a }
  | _, _ => none

theorem roundMatches_eq_pairAt (l : List (Option String)) (r : Nat) :
    roundMatches l r = (List.range (l.length / 2)).filterMap (pairAt l r) := rfl

theorem pairAt_id (l : List (Option String)) (r i : Nat) (f : Fixture)
    (h : pairAt l r i = some f) : f.id = encodeId r i := by
  unfold pairAt at h
  cases hgi : l.getD i none with
  | none =>
    rw [hgi] at h
    exact absurd h (by simp)
  | some sh =>
    cases hga : l.getD (l.length - 1 - i) none with
    | none =>
      rw [hgi, hga] at h
      exact absurd h (by simp)
    | some sa =>
      rw [hgi, hga] at h
      dsimp only at h
      by_cases hemp : sh = "" ∨ sa = ""
      · rw [if_pos hemp] at h
        exact absurd h (by simp)
      · rw [if_neg hemp] at h
        injection h with h
        subst h
        rfl

theorem roundMatches_id_ex (l : List (Option String)) (r : Nat) (f : Fixture)
    (hf : f ∈ roundMatches l r) : ∃ i, i < l.length / 2 ∧ f.id = encodeId r i := by
  rw [roundMatches_eq_pairAt] at hf
  rcases List.mem_filterMap.mp hf with ⟨i, hi, hfi⟩
  exact ⟨i, List.mem_range.mp hi, pairAt_id l r i f hfi⟩

theorem roundMatches_ids_nodup (l : List (Option String)) (r : Nat) :
    ((roundMatches l r).map (fun f => f.id)).Nodup := by
  rw [roundMatches_eq_pairAt, List.map_filterMap]
  refine List.Nodup.filterMap ?_ (List.nodup_range _)
  intro a a' b hb hb'
  rw [Option.mem_def, Option.map_eq_some'] at hb hb'
  obtain ⟨f1, hf1, hb1⟩ := hb
  obtain ⟨f2, hf2, hb2⟩ := hb'
  have e1 := pairAt_id l r a f1 hf1
  have e2 := pairAt_id l r a' f2 hf2
  have he : encodeId r a = encodeId r a' := by
    rw [← e1, ← e2, hb1, hb2]
  exact (encodeId_inj he).2

theorem scheduleRounds_id_bound (fuel : Nat) :
    ∀ (l : List (Option String)) (r : Nat) (f : Fixture),
      f ∈ (scheduleRounds l r fuel).flatten → ∃ r' i, r ≤ r' ∧ f.id = encodeId r' i := by
  induction fuel with
  | zero => intro l r f hf; cases hf
  | succ fl ih =>
    intro l r f hf
    rw [scheduleRounds, List.flatten_cons] at hf
    rcases List.mem_append.mp hf with hf | hf
    · obtain ⟨i, -, he⟩ := roundMatches_id_ex l r f hf
      exact ⟨r, i, Nat.le_refl r, he⟩
    · obtain ⟨r', i, hr', he⟩ := ih (rotateOnce l) (r + 1) f hf
      exact ⟨r', i, by omega, he⟩

theorem scheduleRounds_ids_nodup (fuel : Nat) :
    ∀ (l : List (Option String)) (r : Nat),
      (((scheduleRounds l r fuel).flatten).map (fun f => f.id)).Nodup := by
  induction fuel with
  | zero => intro l r; simp [scheduleRounds]
  | succ fl ih =>
    intro l r
    rw [scheduleRounds, List.flatten_cons, List.map_append, List.nodup_append]
    refine ⟨roundMatches_ids_nodup l r, ih (rotateOnce l) (r + 1), ?_⟩
    intro b hb hb2
    rcases List.mem_map.mp hb with ⟨f, hf, rfl⟩
    rcases List.mem_map.mp hb2 with ⟨f2, hf2, hid2⟩
    obtain ⟨i, -, he⟩ := roundMatches_id_ex l r f hf
    obtain ⟨r', i', hr', he'⟩ := scheduleRounds_id_bound fl (rotateOnce l) (r + 1) f2 hf2
    have : encodeId r i = encodeId r' i' := by
      rw [← he, ← he', hid2]
    have := (encodeId_inj this).1
    omega

theorem roundMatches_all_eq_map (l : List (Option String)) (r : Nat)
    (hall : ∀ x ∈ l, truthyO x = true) :
    (roundMatches l r).map (fun f => f.id) =
      (List.range (l.length / 2)).map (fun i => encodeId r i) := by
  rw [roundMatches_eq_pairAt]
  have hsome : ∀ i ∈ List.range (l.length / 2), pairAt l r i =
      some { id := encodeId r i,
             home := (l.getD i none).getD "",
             away := (l.getD (l.length - 1 - i) none).getD "" } := by
    intro i hi
    have hi2 : i < l.length / 2 := List.mem_range.mp hi
    have hin : i < l.length := by
      have := Nat.div_le_self l.length 2
      omega
    have hin2 : l.length - 1 - i < l.length := by omega
    have hh := hall _ (getD_mem_of_lt l i none hin)
    have ha := hall _ (getD_mem_of_lt l (l.length - 1 - i) none hin2)
    unfold pairAt
    cases hgi : l.getD i none with
    | none =>
      rw [hgi] at hh
      exact absurd hh (by decide)
    | some sh =>
      cases hga : l.getD (l.length - 1 - i) none with
      | none =>
        rw [hga] at ha
        exact absurd ha (by decide)
      | some sa =>
        rw [hgi] at hh
        rw [hga] at ha
        simp only [truthyO, ne_eq, decide_eq_true_eq] at hh ha
        simp [hh, ha]
  rw [filterMap_eq_map_of_some _ _ _ hsome, List.map_map]
  rfl

/-- Decidable check: every fixture id in the schedule, starting at
round index r0, is the encoding of its round index and some loop index
below half. -/
def idsFromLoopFrom (s : List (List Fixture)) (r0 half : Nat) : Bool :=
  match s with
  | [] => true
  | round :: rest =>
    round.all (fun f => (List.range half).any (fun i => f.id == encodeId r0 i)) &&
    idsFromLoopFrom rest (r0 + 1) half

/-- Decidable check: in every round, starting at round index r0, the
fixture ids are exactly r{round}-m0, r{round}-m1, ... contiguously. -/
def idsContiguousFrom (s : List (List Fixture)) (r0 : Nat) : Bool :=
  match s with
  | [] => true
  | round :: rest =>
    (round.map (fun f => f.id) == (List.range round.length).map (fun i => encodeId r0 i)) &&
    idsContiguousFrom rest (r0 + 1)

theorem scheduleRounds_idsFromLoop (fuel : Nat) :
    ∀ (l : List (Option String)) (r : Nat),
      idsFromLoopFrom (scheduleRounds l r fuel) r (l.length / 2) = true := by
  induction fuel with
  | zero => intro l r; rfl
  | succ fl ih =>
    intro l r
    rw [scheduleRounds, idsFromLoopFrom, Bool.and_eq_true]
    constructor
    · rw [List.all_eq_true]
      intro f hf
      obtain ⟨i, hi, he⟩ := roundMatches_id_ex l r f hf
      rw [List.any_eq_true]
      refine ⟨i, List.mem_range.mpr hi, ?_⟩
      rw [he]
      exact beq_self_eq_true _
    · have := ih (rotateOnce l) (r + 1)
      rw [rotateOnce_length] at this
      exact this

theorem scheduleRounds_idsContiguous (fuel : Nat) :
    ∀ (l : List (Option String)) (r : Nat), (∀ x ∈ l, truthyO x = true) →
      idsContiguousFrom (scheduleRounds l r fuel) r = true := by
  induction fuel with
  | zero => intro l r _; rfl
  | succ fl ih =>
    intro l r hall
    rw [scheduleRounds, idsContiguousFrom, Bool.and_eq_true]
    constructor
    · rw [beq_iff_eq, roundMatches_length_all l r hall]
      exact roundMatches_all_eq_map l r hall
    · exact ih (rotateOnce l) (r + 1) (fun x hx => hall x ((rotateOnce_perm l).subset hx))

/-- Counterexample to claim C4 as stated: for the three-team list the
only fixture of round 0 is r0-m1, not r0-m0, so the match indices
within the round do not run 0, 1, 2, ... without gaps (the bye pairing
at loop index 0 was dropped). -/
theorem schedule_ids_not_contiguous_cex :
    idsContiguousFrom (generateSchedule ["A", "B", "C"]) 0 = false ∧
    ((generateSchedule ["A", "B", "C"]).headD []).map (fun f => f.id) = ["r0-m1"] := by
  decide

/-- Claim C4 as amended: every fixture id is r{roundIndex}-m{i} with i
the 0-based index of its pairing in the round-generation loop (i below
half the padded team count), ids are globally unique within the
schedule, and for even team counts the ids within each round are
contiguous 0, 1, 2, ...; for odd team counts the dropped bye pairing
leaves a gap. -/
theorem schedule_fixture_ids_amended (teams : List String)
    (hne : ∀ t ∈ teams, t ≠ "") :
    (((generateSchedule teams).flatten).map (fun f => f.id)).Nodup ∧
    idsFromLoopFrom (generateSchedule teams) 0
      ((if teams.length % 2 = 1 then teams.length + 1 else teams.length) / 2) = true ∧
    (teams.length % 2 = 0 → idsContiguousFrom (generateSchedule teams) 0 = true) := by
  unfold generateSchedule
  dsimp only
  simp only [List.length_map]
  by_cases hodd : teams.length % 2 = 1
  · rw [if_pos hodd, if_pos hodd]
    have hlen : (teams.map some ++ [none]).length = teams.length + 1 := by simp
    rw [hlen]
    refine ⟨scheduleRounds_ids_nodup _ _ _, ?_, ?_⟩
    · have hx := scheduleRounds_idsFromLoop (teams.length + 1 - 1) (teams.map some ++ [none]) 0
      rw [hlen] at hx
      exact hx
    · intro he
      omega
  · rw [if_neg hodd, if_neg hodd]
    have hall : ∀ x ∈ teams.map some, truthyO x = true := by
      intro x hx
      rcases List.mem_map.mp hx with ⟨t, ht, hte⟩
      subst hte
      simp [truthyO, hne t ht]
    rw [List.length_map]
    refine ⟨scheduleRounds_ids_nodup _ _ _, ?_, ?_⟩
    · have hx := scheduleRounds_idsFromLoop (teams.length - 1) (teams.map some) 0
      rw [List.length_map] at hx
      exact hx
    · intro _
      exact scheduleRounds_idsContiguous (teams.length - 1) (teams.map some) 0 hall

/-- Witness for the amended claim C4 at a four-team list. -/
theorem schedule_fixture_ids_amended_witness :
    (((generateSchedule ["A", "B", "C", "D"]).flatten).map (fun f => f.id)).Nodup ∧
    idsFromLoopFrom (generateSchedule ["A", "B", "C", "D"]) 0
      ((if (["A", "B", "C", "D"] : List String).length % 2 = 1
        then (["A", "B", "C", "D"] : List String).length + 1
        else (["A", "B", "C", "D"] : List String).length) / 2) = true ∧
    ((["A", "B", "C", "D"] : List String).length % 2 = 0 →
      idsContiguousFrom (generateSchedule ["A", "B", "C", "D"]) 0 = true) :=
  schedule_fixture_ids_amended ["A", "B", "C", "D"] (by decide)
